import Mathlib

/-!
# wicked: common DBus functions and private netinfo helpers

A shallow embedding of `src/dbus-common.c` and of the inline helpers of
`src/netinfo_priv.h`, with the properties proved about them.

Conventions of the embedding:

* a `const char *` that may be `NULL` is an `Option String` (`none` is `NULL`);
* C `int` values are `Int`, C `unsigned int` values are `Nat`; the lengths
  of arrays in memory and the timeouts are taken as the numbers they stand
  for, and the conversion of an `unsigned int` error code to the `int` a
  function returns is written out;
* a table terminated by a sentinel element is the `List` of the elements
  before the sentinel;
* a function that writes through a pointer argument returns the new value
  of the object pointed to.
-/

set_option autoImplicit false

namespace Wicked

/-! ## Constants of the system headers -/

/-- Value of `EIO` in `<errno.h>` (Linux). -/
def EIO : Int := 5
/-- Value of `EACCES` in `<errno.h>` (Linux). -/
def EACCES : Int := 13
/-- Value of `EINVAL` in `<errno.h>` (Linux). -/
def EINVAL : Int := 22
/-- Value of `EOPNOTSUPP` in `<errno.h>` (Linux). -/
def EOPNOTSUPP : Int := 95

/-- Value of `DBUS_TYPE_INVALID` in `<dbus/dbus-protocol.h>`: the NUL character. -/
def DBUS_TYPE_INVALID : Int := 0
/-- Value of `DBUS_TYPE_BYTE`: the character y. -/
def DBUS_TYPE_BYTE : Int := 121
/-- Value of `DBUS_TYPE_BOOLEAN`: the character b. -/
def DBUS_TYPE_BOOLEAN : Int := 98
/-- Value of `DBUS_TYPE_INT16`: the character n. -/
def DBUS_TYPE_INT16 : Int := 110
/-- Value of `DBUS_TYPE_UINT16`: the character q. -/
def DBUS_TYPE_UINT16 : Int := 113
/-- Value of `DBUS_TYPE_INT32`: the character i. -/
def DBUS_TYPE_INT32 : Int := 105
/-- Value of `DBUS_TYPE_UINT32`: the character u. -/
def DBUS_TYPE_UINT32 : Int := 117
/-- Value of `DBUS_TYPE_INT64`: the character x. -/
def DBUS_TYPE_INT64 : Int := 120
/-- Value of `DBUS_TYPE_UINT64`: the character t. -/
def DBUS_TYPE_UINT64 : Int := 116
/-- Value of `DBUS_TYPE_STRING`: the character s. -/
def DBUS_TYPE_STRING : Int := 115
/-- Value of `DBUS_TYPE_OBJECT_PATH`: the character o. -/
def DBUS_TYPE_OBJECT_PATH : Int := 111
/-- Value of `DBUS_TYPE_ARRAY`: the character a. -/
def DBUS_TYPE_ARRAY : Int := 97

/-- Value of `FALSE` for a `dbus_bool_t`. -/
def FALSE : Nat := 0
/-- Value of `TRUE` for a `dbus_bool_t`. -/
def TRUE : Nat := 1

/-- Value of `AF_INET` in `<sys/socket.h>` (Linux). -/
def AF_INET : Int := 2
/-- Value of `AF_INET6` in `<sys/socket.h>` (Linux). -/
def AF_INET6 : Int := 10

/-- Conversion of an `unsigned int` to `int`, as done by `return errcode;`
in a function that returns `int`: a value up to `INT_MAX` is kept, a value
above it comes back as the value minus `2 ^ 32`. -/
def int_of_unsigned (v : Nat) : Int :=
  if v % 2 ^ 32 < 2 ^ 31 then ((v % 2 ^ 32 : Nat) : Int)
  else ((v % 2 ^ 32 : Nat) : Int) - 2 ^ 32

/-! ## Error translation (`dbus-common.c`, lines 21-45) -/

/-- One element of an `ni_intmap_t` table: a name and its `unsigned int`
value. The element with a `NULL` name ends a table and is not listed. -/
structure ni_intmap_t where
  name : String
  value : Nat
  deriving DecidableEq, Repr

/-- The static table `__ni_dbus_error_map`. -/
def __ni_dbus_error_map : List ni_intmap_t :=
  [ ⟨"org.freedesktop.DBus.Error.AccessDenied", 13⟩,
    ⟨"org.freedesktop.DBus.Error.InvalidArgs", 22⟩,
    ⟨"org.freedesktop.DBus.Error.UnknownMethod", 95⟩ ]

/-- Modelled from the spec: `ni_parse_int_mapped` is defined in `util.c`,
which is not among the sources; only its calls in `ni_dbus_translate_error`
are. It is taken as the lookup of the name in the table, in table order:
`some value` stands for a return value `>= 0` with `*result = value`, and
`none` for a negative return value. -/
def ni_parse_int_mapped (input : String) : List ni_intmap_t → Option Nat
  | [] => none
  | m :: rest => if m.name = input then some m.value else ni_parse_int_mapped input rest

/-- The tables `ni_dbus_translate_error` can pass to `ni_parse_int_mapped`. -/
inductive ni_dbus_error_table where
  | caller
  | builtin
  deriving DecidableEq, Repr

/-- The body of `ni_dbus_translate_error(err, error_map)`, for `err->name = name`:
the tables it hands to `ni_parse_int_mapped`, in order, and the value it returns.
`error_map = none` is the `NULL` map. -/
def ni_dbus_translate_error_run (name : String) (error_map : Option (List ni_intmap_t)) :
    List ni_dbus_error_table × Int :=
  let fallback (consulted : List ni_dbus_error_table) : List ni_dbus_error_table × Int :=
    match ni_parse_int_mapped name __ni_dbus_error_map with
    | some errcode => (consulted ++ [ni_dbus_error_table.builtin], int_of_unsigned errcode)
    | none => (consulted ++ [ni_dbus_error_table.builtin], EIO)
  match error_map with
  | some map =>
    match ni_parse_int_mapped name map with
    | some errcode => ([ni_dbus_error_table.caller], int_of_unsigned errcode)
    | none => fallback [ni_dbus_error_table.caller]
  | none => fallback []

/-- The value returned by `ni_dbus_translate_error(err, error_map)`. -/
def ni_dbus_translate_error (name : String) (error_map : Option (List ni_intmap_t)) : Int :=
  (ni_dbus_translate_error_run name error_map).2

/-! ## Property dictionaries (`dbus-common.c`, lines 113-171) -/

/-- The fields of `struct ni_dbus_dict_entry` read by `ni_dbus_process_properties`. -/
structure ni_dbus_dict_entry where
  key : String
  type : Int
  array_type : Int
  array_len : Nat
  deriving DecidableEq, Repr

/-- One element of a table of `struct ni_dbus_dict_entry_handler`. The type
`σ` is the type of the user object the setters work on; `set = none` is a
`NULL` setter. -/
structure ni_dbus_dict_entry_handler (σ : Type) where
  name : String
  type : Int
  array_type : Int
  array_len_min : Nat
  array_len_max : Nat
  set : Option (ni_dbus_dict_entry → σ → σ)

/-- The loop of `__ni_dbus_get_property_handler`: it walks the table until an
element with `type = 0` and returns the first element whose name is equal to
`name`. (The end of the list stands for the end of a table that has no
element with `type = 0` left.) -/
def __ni_dbus_get_property_handler {σ : Type} :
    List (ni_dbus_dict_entry_handler σ) → String → Option (ni_dbus_dict_entry_handler σ)
  | [], _ => none
  | h :: rest, name =>
    if h.type = 0 then none
    else if h.name = name then some h
    else __ni_dbus_get_property_handler rest name

/-- What a call of `ni_dbus_process_properties` leaves behind: the value
returned, the user object after the setters that ran, and the setters that
ran (name of the handler and entry passed), in the order of the calls. -/
structure ni_dbus_process_result (σ : Type) where
  rv : Int
  user_object : σ
  calls : List (String × ni_dbus_dict_entry)

/-- The first test of the loop body: the entry has not the type the handler
asks for. -/
def ni_dbus_unexpected_type {σ : Type} (h : ni_dbus_dict_entry_handler σ)
    (entry : ni_dbus_dict_entry) : Bool :=
  decide (h.type ≠ entry.type)
    || (decide (h.type = DBUS_TYPE_ARRAY) && decide (h.array_type ≠ entry.array_type))

/-- The second test of the loop body: the length of the array is outside the
bounds the handler asks for. -/
def ni_dbus_unexpected_array_length {σ : Type} (h : ni_dbus_dict_entry_handler σ)
    (entry : ni_dbus_dict_entry) : Bool :=
  decide (h.type = DBUS_TYPE_ARRAY) && decide (h.array_len_max ≠ 0)
    && (decide (entry.array_len < h.array_len_min) || decide (h.array_len_max < entry.array_len))

/-- The function `ni_dbus_process_properties`, over the list of the entries
that `ni_dbus_dict_get_entry` yields from the iterator. -/
def ni_dbus_process_properties {σ : Type} (entries : List ni_dbus_dict_entry)
    (handlers : List (ni_dbus_dict_entry_handler σ)) (user_object : σ) :
    ni_dbus_process_result σ :=
  match entries with
  | [] => ⟨0, user_object, []⟩
  | entry :: rest =>
    match __ni_dbus_get_property_handler handlers entry.key with
    | none => ni_dbus_process_properties rest handlers user_object
    | some h =>
      if ni_dbus_unexpected_type h entry then ⟨-EINVAL, user_object, []⟩
      else if ni_dbus_unexpected_array_length h entry then ⟨-EINVAL, user_object, []⟩
      else
        match h.set with
        | some set =>
          let r := ni_dbus_process_properties rest handlers (set entry user_object)
          ⟨r.rv, r.user_object, (h.name, entry) :: r.calls⟩
        | none => ni_dbus_process_properties rest handlers user_object

/-! ## Variants (`dbus-common.c`, lines 173-316) -/

/-- Modelled from the spec: the union of the value members of
`ni_dbus_variant_t` is declared in `dbus-common.h`, which is not among the
sources; the members are the ones `dbus-common.c` reads and writes. A value
of this type says which member was stored last and what was stored. `zero`
is the union after `memset(var, 0, sizeof(*var))`: every member reads as 0
or `NULL`. `string_value none` is a `NULL` string pointer; the cells of a
string array are the pointers of the allocated block, `none` being a cell
that was never assigned. -/
inductive ni_dbus_variant_value where
  | zero
  | string_value (s : Option String)
  | byte_value (v : Nat)
  | bool_value (v : Nat)
  | int16_value (v : Int)
  | uint16_value (v : Nat)
  | int32_value (v : Int)
  | uint32_value (v : Nat)
  | int64_value (v : Int)
  | uint64_value (v : Nat)
  | byte_array_value (bytes : List Nat)
  | string_array_value (cells : List (Option String))
  deriving DecidableEq, Repr

/-- The member `array` of `ni_dbus_variant_t`. -/
structure ni_dbus_variant_array where
  element_type : Int
  len : Nat
  deriving DecidableEq, Repr

/-- Modelled from the spec: `ni_dbus_variant_t` is declared in
`dbus-common.h`, which is not among the sources; the fields are the ones
`dbus-common.c` reads and writes: `type`, `array.element_type`, `array.len`
and the value members. -/
structure ni_dbus_variant_t where
  type : Int
  array : ni_dbus_variant_array
  value : ni_dbus_variant_value
  deriving DecidableEq, Repr

/-- The variant after `memset(var, 0, sizeof(*var))`. -/
def ni_dbus_variant_zero : ni_dbus_variant_t :=
  ⟨0, ⟨0, 0⟩, ni_dbus_variant_value.zero⟩

/-- The function `ni_dbus_variant_destroy`. Its two branches release heap
memory (and `ni_string_free` resets the string pointer) before the whole
object is overwritten with zeros. -/
def ni_dbus_variant_destroy (var : ni_dbus_variant_t) : ni_dbus_variant_t :=
  let freed : ni_dbus_variant_t :=
    if var.type = DBUS_TYPE_STRING then { var with value := ni_dbus_variant_value.string_value none }
    else var
  let zeroed : ni_dbus_variant_t := { freed with type := 0, array := ⟨0, 0⟩, value := ni_dbus_variant_value.zero }
  { zeroed with type := DBUS_TYPE_INVALID }

/-- The function `__ni_dbus_variant_change_type`. -/
def __ni_dbus_variant_change_type (var : ni_dbus_variant_t) (new_type : Int) : ni_dbus_variant_t :=
  if var.type = new_type then var
  else
    let cleared : ni_dbus_variant_t :=
      if var.type ≠ DBUS_TYPE_INVALID then
        if var.type = DBUS_TYPE_STRING ∨ var.type = DBUS_TYPE_OBJECT_PATH
            ∨ var.type = DBUS_TYPE_ARRAY then ni_dbus_variant_destroy var
        else var
      else var
    { cleared with type := new_type }

/-- Modelled from the spec: `ni_string_dup(&p, value)` is defined in `util.c`,
which is not among the sources. It leaves in `p` a copy of `value` (`NULL`
for a `NULL` value). -/
def ni_string_dup (value : Option String) : Option String := value

/-- The function `ni_dbus_variant_set_string`. The type it asks
`__ni_dbus_variant_change_type` for is `DBUS_TYPE_BOOLEAN`, as in the source. -/
def ni_dbus_variant_set_string (var : ni_dbus_variant_t) (value : Option String) :
    ni_dbus_variant_t :=
  let var1 := __ni_dbus_variant_change_type var DBUS_TYPE_BOOLEAN
  { var1 with value := ni_dbus_variant_value.string_value (ni_string_dup value) }

/-- The function `ni_dbus_variant_set_bool`. -/
def ni_dbus_variant_set_bool (var : ni_dbus_variant_t) (value : Nat) : ni_dbus_variant_t :=
  let var1 := __ni_dbus_variant_change_type var DBUS_TYPE_BOOLEAN
  { var1 with value := ni_dbus_variant_value.bool_value value }

/-- The function `ni_dbus_variant_set_byte`. -/
def ni_dbus_variant_set_byte (var : ni_dbus_variant_t) (value : Nat) : ni_dbus_variant_t :=
  let var1 := __ni_dbus_variant_change_type var DBUS_TYPE_BYTE
  { var1 with value := ni_dbus_variant_value.byte_value value }

/-- The function `ni_dbus_variant_set_uint16`. -/
def ni_dbus_variant_set_uint16 (var : ni_dbus_variant_t) (value : Nat) : ni_dbus_variant_t :=
  let var1 := __ni_dbus_variant_change_type var DBUS_TYPE_UINT16
  { var1 with value := ni_dbus_variant_value.uint16_value value }

/-- The function `ni_dbus_variant_set_int16`. -/
def ni_dbus_variant_set_int16 (var : ni_dbus_variant_t) (value : Int) : ni_dbus_variant_t :=
  let var1 := __ni_dbus_variant_change_type var DBUS_TYPE_INT16
  { var1 with value := ni_dbus_variant_value.int16_value value }

/-- The function `ni_dbus_variant_set_uint32`. -/
def ni_dbus_variant_set_uint32 (var : ni_dbus_variant_t) (value : Nat) : ni_dbus_variant_t :=
  let var1 := __ni_dbus_variant_change_type var DBUS_TYPE_UINT32
  { var1 with value := ni_dbus_variant_value.uint32_value value }

/-- The function `ni_dbus_variant_set_int32`. -/
def ni_dbus_variant_set_int32 (var : ni_dbus_variant_t) (value : Int) : ni_dbus_variant_t :=
  let var1 := __ni_dbus_variant_change_type var DBUS_TYPE_INT32
  { var1 with value := ni_dbus_variant_value.int32_value value }

/-- The function `ni_dbus_variant_set_uint64`. -/
def ni_dbus_variant_set_uint64 (var : ni_dbus_variant_t) (value : Nat) : ni_dbus_variant_t :=
  let var1 := __ni_dbus_variant_change_type var DBUS_TYPE_UINT64
  { var1 with value := ni_dbus_variant_value.uint64_value value }

/-- The function `ni_dbus_variant_set_int64`. -/
def ni_dbus_variant_set_int64 (var : ni_dbus_variant_t) (value : Int) : ni_dbus_variant_t :=
  let var1 := __ni_dbus_variant_change_type var DBUS_TYPE_INT64
  { var1 with value := ni_dbus_variant_value.int64_value value }

/-- The call `xstrdup(s ?: "")`: a copy of `s`, of the empty string when `s`
is `NULL`. -/
def xstrdup_or_empty (s : Option String) : String :=
  match s with
  | some str => str
  | none => ""

/-- The function `ni_dbus_variant_set_byte_array`; `data i` is `data[i]`.
With `len = 0` nothing is allocated and the pointer stays `NULL`. -/
def ni_dbus_variant_set_byte_array (var : ni_dbus_variant_t) (len : Nat) (data : Nat → Nat) :
    ni_dbus_variant_t :=
  let var1 := ni_dbus_variant_destroy var
  let var2 : ni_dbus_variant_t :=
    { var1 with type := DBUS_TYPE_ARRAY, array := ⟨DBUS_TYPE_BYTE, len⟩ }
  if len ≠ 0 then
    { var2 with value := (ni_dbus_variant_value.byte_array_value ((List.range len).map data)) }
  else var2

/-- The function `ni_dbus_variant_set_string_array`; `data i` is `data[i]`.
With `len = 0` nothing is allocated and the pointer stays `NULL`. -/
def ni_dbus_variant_set_string_array (var : ni_dbus_variant_t) (len : Nat)
    (data : Nat → Option String) : ni_dbus_variant_t :=
  let var1 := ni_dbus_variant_destroy var
  let var2 : ni_dbus_variant_t :=
    { var1 with type := DBUS_TYPE_ARRAY, array := ⟨DBUS_TYPE_STRING, len⟩ }
  if len ≠ 0 then
    { var2 with value := (ni_dbus_variant_value.string_array_value
        ((List.range len).map (fun i => some (xstrdup_or_empty (data i))))) }
  else var2

/-- The cells of the block `var->string_array_value` points to: none for a
`NULL` pointer. (When the union holds another member the pointer is not one
that any function of this file has stored; it is read as pointing to no
cell.) -/
def string_array_cells (var : ni_dbus_variant_t) : List (Option String) :=
  match var.value with
  | ni_dbus_variant_value.string_array_value cells => cells
  | _ => []

/-- The call `realloc(block, n * sizeof(char *))`: the first `n` cells are
kept, and cells that were not there before are not assigned. -/
def realloc_cells (cells : List (Option String)) (n : Nat) : List (Option String) :=
  cells.take n ++ List.replicate (n - cells.length) none

/-- The string `var->string_array_value[i]`, when cell `i` of the block was
assigned. -/
def string_array_at (var : ni_dbus_variant_t) (i : Nat) : Option String :=
  ((string_array_cells var).get? i).join

/-- The function `ni_dbus_variant_append_string_array`: the value returned
and the variant after the call. The length `array.len` is the number of
cells of a block in memory and is counted as a natural number. -/
def ni_dbus_variant_append_string_array (var : ni_dbus_variant_t) (string : Option String) :
    Nat × ni_dbus_variant_t :=
  let len := var.array.len
  if var.type ≠ DBUS_TYPE_ARRAY ∨ var.array.element_type ≠ DBUS_TYPE_STRING then (FALSE, var)
  else
    let block := realloc_cells (string_array_cells var) (len + 1)
    let block1 := block.set len (some (xstrdup_or_empty string))
    ( TRUE, { var with value := ni_dbus_variant_value.string_array_value block1,
                       array := { var.array with len := var.array.len + 1 } })

/-! ## Helpers of `netinfo_priv.h` -/

/-- The two members of `ni_interface_t` that `__ni_interface_address_info`
can return the address of. -/
inductive ni_afinfo_ref where
  | ipv4
  | ipv6
  deriving DecidableEq, Repr

/-- Modelled from the spec: `ni_interface_t` is declared in
`wicked/netinfo.h`, which is not among the sources. The interface carries an
IPv4 and an IPv6 sub-record of type `ni_afinfo_t`, here the parameter `α`;
`rest` stands for all its other members. -/
structure ni_interface_t (α β : Type) where
  ipv4 : α
  ipv6 : α
  rest : β

/-- The record a pointer to a member of `*ifp` points to. -/
def ni_afinfo_ref.deref {α β : Type} (r : ni_afinfo_ref) (ifp : ni_interface_t α β) : α :=
  match r with
  | ni_afinfo_ref.ipv4 => ifp.ipv4
  | ni_afinfo_ref.ipv6 => ifp.ipv6

/-- The function `__ni_interface_address_info`: the interface after the
call and the pointer returned (`none` is `NULL`). -/
def __ni_interface_address_info {α β : Type} (ifp : ni_interface_t α β) (af : Int) :
    ni_interface_t α β × Option ni_afinfo_ref :=
  if af = AF_INET then (ifp, some ni_afinfo_ref.ipv4)
  else if af = AF_INET6 then (ifp, some ni_afinfo_ref.ipv6)
  else (ifp, none)

/-- The library function `strcmp`, up to the sign of its result. Only a
call with two strings has a result: `none` stands for a call with a `NULL`
argument, which has no defined behaviour. -/
def strcmp (a b : Option String) : Option Int :=
  match a, b with
  | some x, some y => some (if x = y then 0 else if x < y then -1 else 1)
  | _, _ => none

/-- The function `xstreq`; `none` would be a call that reaches `strcmp` with
a `NULL` argument. -/
def xstreq (a b : Option String) : Option Int :=
  if a = none ∨ b = none then some (if a = b then 1 else 0)
  else (strcmp a b).map (fun r => if r = 0 then 1 else 0)

/-! ## Retransmission timeouts (`netinfo_priv.h`, lines 138-144) -/

/-- The type `struct timeval`. -/
structure timeval where
  tv_sec : Int
  tv_usec : Int
  deriving DecidableEq, Repr

/-- The type `ni_timeout_param_t`; its first four fields are `unsigned int`. -/
structure ni_timeout_param_t where
  timeout : Nat
  increment : Nat
  max_jitter : Nat
  max_timeout : Nat
  deadline : timeval
  deriving DecidableEq, Repr

/-- Modelled from the spec: the retry step of the retransmission algorithm
is in `capture.c`, which is not among the sources. On each retry
`timeout = min(timeout + increment, max_timeout)`, in the words of the
specification; the jitter goes into the deadline and leaves `timeout` as it
is. -/
def ni_timeout_retry (p : ni_timeout_param_t) : ni_timeout_param_t :=
  { p with timeout := min (p.timeout + p.increment) p.max_timeout }

/-- The timeout parameter after `n` retries. -/
def ni_timeout_retries : Nat → ni_timeout_param_t → ni_timeout_param_t
  | 0, p => p
  | n + 1, p => ni_timeout_retry (ni_timeout_retries n p)

/-! ## Deserializing a message (`dbus-common.c`, lines 93-111) -/

/-- The call `dbus_message_iter_next(&iter)` of libdbus, on the list of the
arguments from the current one on: with a next argument the iterator moves
to it and the call returns `TRUE`, without one the call returns `FALSE`. -/
def dbus_message_iter_next {α : Type} (iter : List α) : Bool × List α :=
  match iter with
  | _ :: next :: rest => (true, next :: rest)
  | _ => (false, [])

/-- The loop of `ni_dbus_message_get_args_variants`, with `remaining` passes
left before `argc` reaches `max_args`. The helper
`ni_dbus_message_iter_get_variant_data` is not among the sources and is the
parameter `get_variant_data`: from the argument under the iterator (`none`
when there is none) and the cell `argv[argc]` it gives its return value and
the cell it leaves. The array `argv` is given by its cells, `argv i` being
`argv[i]`. -/
def ni_dbus_message_get_args_loop {α : Type}
    (get_variant_data : Option α → ni_dbus_variant_t → Bool × ni_dbus_variant_t) :
    Nat → List α → Nat → (Nat → ni_dbus_variant_t) → Int × (Nat → ni_dbus_variant_t)
  | 0, _, argc, argv => ((argc : Int), argv)
  | remaining + 1, iter, argc, argv =>
    let decoded := get_variant_data iter.head? (argv argc)
    let argv1 := Function.update argv argc decoded.2
    if decoded.1 = false then (-1, argv1)
    else
      let moved := dbus_message_iter_next iter
      if moved.1 = false then ((argc : Int), argv1)
      else ni_dbus_message_get_args_loop get_variant_data remaining moved.2 (argc + 1) argv1

/-- The function `ni_dbus_message_get_args_variants`: the value returned and
the array `argv` after the call; `msg` is the list of the arguments of the
message, on the first of which `dbus_message_iter_init` puts the iterator. -/
def ni_dbus_message_get_args_variants {α : Type}
    (get_variant_data : Option α → ni_dbus_variant_t → Bool × ni_dbus_variant_t)
    (msg : List α) (argv : Nat → ni_dbus_variant_t) (max_args : Nat) :
    Int × (Nat → ni_dbus_variant_t) :=
  ni_dbus_message_get_args_loop get_variant_data max_args msg 0 argv

/-! ## Setter calls of a property dictionary, in the words of the specification -/

/-- The entries of a dict whose key has a handler in the table. -/
def known_entries {σ : Type} (handlers : List (ni_dbus_dict_entry_handler σ))
    (entries : List ni_dbus_dict_entry) : List ni_dbus_dict_entry :=
  entries.filter (fun entry => (__ni_dbus_get_property_handler handlers entry.key).isSome)

/-- An entry is valid for the table when its key has no handler or it passes
the two tests of the handler of its key. -/
def valid_entry {σ : Type} (handlers : List (ni_dbus_dict_entry_handler σ))
    (entry : ni_dbus_dict_entry) : Bool :=
  match __ni_dbus_get_property_handler handlers entry.key with
  | none => true
  | some h => !ni_dbus_unexpected_type h entry && !ni_dbus_unexpected_array_length h entry

/-- One setter call for each entry of the list whose key has a handler with
a setter, in the order of the list. -/
def setter_calls {σ : Type} (handlers : List (ni_dbus_dict_entry_handler σ))
    (entries : List ni_dbus_dict_entry) : List (String × ni_dbus_dict_entry) :=
  entries.filterMap (fun entry =>
    match __ni_dbus_get_property_handler handlers entry.key with
    | some h => if h.set.isSome then some (h.name, entry) else none
    | none => none)

/-- The user object after the setter calls of `setter_calls`, made in the
order of the list. -/
def apply_setters {σ : Type} (handlers : List (ni_dbus_dict_entry_handler σ))
    (entries : List ni_dbus_dict_entry) (user_object : σ) : σ :=
  entries.foldl (fun object entry =>
    match __ni_dbus_get_property_handler handlers entry.key with
    | some h =>
      match h.set with
      | some set => set entry object
      | none => object
    | none => object) user_object

/-! ## Sequences of calls on a variant -/

/-- One call of a function of `dbus-common.c` that writes a variant. -/
inductive ni_dbus_variant_call where
  | set_string (value : Option String)
  | set_bool (value : Nat)
  | set_byte (value : Nat)
  | set_uint16 (value : Nat)
  | set_int16 (value : Int)
  | set_uint32 (value : Nat)
  | set_int32 (value : Int)
  | set_uint64 (value : Nat)
  | set_int64 (value : Int)
  | set_byte_array (len : Nat) (data : Nat → Nat)
  | set_string_array (len : Nat) (data : Nat → Option String)
  | append_string_array (string : Option String)
  | destroy

/-- The variant after one call. -/
def ni_dbus_variant_call.run (c : ni_dbus_variant_call) (var : ni_dbus_variant_t) :
    ni_dbus_variant_t :=
  match c with
  | ni_dbus_variant_call.set_string value => ni_dbus_variant_set_string var value
  | ni_dbus_variant_call.set_bool value => ni_dbus_variant_set_bool var value
  | ni_dbus_variant_call.set_byte value => ni_dbus_variant_set_byte var value
  | ni_dbus_variant_call.set_uint16 value => ni_dbus_variant_set_uint16 var value
  | ni_dbus_variant_call.set_int16 value => ni_dbus_variant_set_int16 var value
  | ni_dbus_variant_call.set_uint32 value => ni_dbus_variant_set_uint32 var value
  | ni_dbus_variant_call.set_int32 value => ni_dbus_variant_set_int32 var value
  | ni_dbus_variant_call.set_uint64 value => ni_dbus_variant_set_uint64 var value
  | ni_dbus_variant_call.set_int64 value => ni_dbus_variant_set_int64 var value
  | ni_dbus_variant_call.set_byte_array len data => ni_dbus_variant_set_byte_array var len data
  | ni_dbus_variant_call.set_string_array len data => ni_dbus_variant_set_string_array var len data
  | ni_dbus_variant_call.append_string_array string =>
    (ni_dbus_variant_append_string_array var string).2
  | ni_dbus_variant_call.destroy => ni_dbus_variant_destroy var

/-- The variant after a sequence of calls on the zeroed variant. -/
def ni_dbus_variant_after (calls : List ni_dbus_variant_call) : ni_dbus_variant_t :=
  calls.foldl (fun var c => c.run var) ni_dbus_variant_zero

/-- The number of elements stored in the array a variant points to: the
bytes of a byte array, the assigned cells of a string array, none for a
`NULL` pointer. -/
def elements_stored (var : ni_dbus_variant_t) : Nat :=
  match var.value with
  | ni_dbus_variant_value.byte_array_value bytes => bytes.length
  | ni_dbus_variant_value.string_array_value cells => (cells.filter Option.isSome).length
  | _ => 0

/-- The invariant kept by the calls of `ni_dbus_variant_call`: a variant
that is not an array has `array.len = 0`; an array is one of bytes or of
strings, `array.len` is the number of its elements stored, and the block of
an array of strings has `array.len` cells, all assigned. -/
def variant_inv (var : ni_dbus_variant_t) : Prop :=
  (var.type ≠ DBUS_TYPE_ARRAY → var.array.len = 0)
  ∧ (var.type = DBUS_TYPE_ARRAY →
      (var.array.element_type = DBUS_TYPE_BYTE ∨ var.array.element_type = DBUS_TYPE_STRING)
      ∧ var.array.len = elements_stored var
      ∧ (var.array.element_type = DBUS_TYPE_STRING →
          (string_array_cells var).length = var.array.len
          ∧ ∀ c ∈ string_array_cells var, c.isSome = true))

/-! ## Printing a variant (`dbus-common.c`, lines 318-366) -/

/-- The character of the decimal digit `d`. -/
def decimal_digit (d : Nat) : Char := "0123456789".toList.getD d '0'

/-- The character of the hexadecimal digit `d`, in lower case as `%x` prints it. -/
def hex_digit (d : Nat) : Char := "0123456789abcdef".toList.getD d '0'

/-- The decimal digits of a number, the most significant one first. -/
def decimal_digits (n : Nat) : List Char :=
  if n < 10 then [decimal_digit n]
  else decimal_digits (n / 10) ++ [decimal_digit (n % 10)]
termination_by n
decreasing_by omega

/-- The hexadecimal digits of a number, the most significant one first. -/
def hex_digits (n : Nat) : List Char :=
  if n < 16 then [hex_digit n]
  else hex_digits (n / 16) ++ [hex_digit (n % 16)]
termination_by n
decreasing_by omega

/-- The output of `snprintf` for the formats `%u` and `%llu`. -/
def print_unsigned (v : Nat) : String := String.mk (decimal_digits v)

/-- The output of `snprintf` for the formats `%d` and `%lld`. -/
def print_signed (v : Int) : String :=
  if v < 0 then String.mk ('-' :: decimal_digits v.natAbs)
  else String.mk (decimal_digits v.toNat)

/-- The output of `snprintf` for the format `0x%02x`: the hexadecimal digits
after `0x`, with a leading `0` when there is one digit only. -/
def print_hex_02x (v : Nat) : String :=
  String.mk ('0' :: 'x' ::
    (if (hex_digits v).length < 2 then '0' :: hex_digits v else hex_digits v))

/-- Reading decimal digits, with the number read so far. -/
def parse_digits : List Char → Nat → Option Nat
  | [], acc => some acc
  | c :: cs, acc =>
    if 48 ≤ c.toNat ∧ c.toNat ≤ 57 then parse_digits cs (acc * 10 + (c.toNat - 48))
    else none

/-- Parsing an unsigned decimal number: at least one digit, and digits only. -/
def parse_unsigned (s : String) : Option Nat :=
  match s.data with
  | [] => none
  | c :: cs => parse_digits (c :: cs) 0

/-- Parsing a signed decimal number: digits, after a minus sign for a
negative number. -/
def parse_signed (s : String) : Option Int :=
  match s.data with
  | [] => none
  | c :: cs =>
    if c = '-' then
      match cs with
      | [] => none
      | d :: ds => (parse_digits (d :: ds) 0).map (fun (n : Nat) => -(n : Int))
    else (parse_digits (c :: cs) 0).map (fun (n : Nat) => (n : Int))

/-- Reading the member `string_value` of the union: the pointer stored, `NULL`
in the zeroed union. The result is `none` when the union holds another member:
the embedding does not say what the bytes of one member are as another. The
same holds for the other members below. -/
def read_string_value : ni_dbus_variant_value → Option (Option String)
  | ni_dbus_variant_value.zero => some none
  | ni_dbus_variant_value.string_value s => some s
  | _ => none

/-- Reading the member `byte_value` of the union. -/
def read_byte_value : ni_dbus_variant_value → Option Nat
  | ni_dbus_variant_value.zero => some 0
  | ni_dbus_variant_value.byte_value v => some v
  | _ => none

/-- Reading the member `bool_value` of the union. -/
def read_bool_value : ni_dbus_variant_value → Option Nat
  | ni_dbus_variant_value.zero => some 0
  | ni_dbus_variant_value.bool_value v => some v
  | _ => none

/-- Reading the member `int16_value` of the union. -/
def read_int16_value : ni_dbus_variant_value → Option Int
  | ni_dbus_variant_value.zero => some 0
  | ni_dbus_variant_value.int16_value v => some v
  | _ => none

/-- Reading the member `uint16_value` of the union. -/
def read_uint16_value : ni_dbus_variant_value → Option Nat
  | ni_dbus_variant_value.zero => some 0
  | ni_dbus_variant_value.uint16_value v => some v
  | _ => none

/-- Reading the member `int32_value` of the union. -/
def read_int32_value : ni_dbus_variant_value → Option Int
  | ni_dbus_variant_value.zero => some 0
  | ni_dbus_variant_value.int32_value v => some v
  | _ => none

/-- Reading the member `uint32_value` of the union. -/
def read_uint32_value : ni_dbus_variant_value → Option Nat
  | ni_dbus_variant_value.zero => some 0
  | ni_dbus_variant_value.uint32_value v => some v
  | _ => none

/-- Reading the member `int64_value` of the union. -/
def read_int64_value : ni_dbus_variant_value → Option Int
  | ni_dbus_variant_value.zero => some 0
  | ni_dbus_variant_value.int64_value v => some v
  | _ => none

/-- Reading the member `uint64_value` of the union. -/
def read_uint64_value : ni_dbus_variant_value → Option Nat
  | ni_dbus_variant_value.zero => some 0
  | ni_dbus_variant_value.uint64_value v => some v
  | _ => none

/-- The function `ni_dbus_variant_sprint`: the string returned, the inner
`none` being a `NULL` pointer; the result is `none` when the member the
function reads is not the one the union holds. -/
def ni_dbus_variant_sprint (var : ni_dbus_variant_t) : Option (Option String) :=
  if var.type = DBUS_TYPE_STRING ∨ var.type = DBUS_TYPE_OBJECT_PATH then
    read_string_value var.value
  else if var.type = DBUS_TYPE_BYTE then
    (read_byte_value var.value).map (fun v => some (print_hex_02x v))
  else if var.type = DBUS_TYPE_BOOLEAN then
    (read_bool_value var.value).map (fun v => some (if v ≠ 0 then "true" else "false"))
  else if var.type = DBUS_TYPE_INT16 then
    (read_int16_value var.value).map (fun v => some (print_signed v))
  else if var.type = DBUS_TYPE_UINT16 then
    (read_uint16_value var.value).map (fun v => some (print_unsigned v))
  else if var.type = DBUS_TYPE_INT32 then
    (read_int32_value var.value).map (fun v => some (print_signed v))
  else if var.type = DBUS_TYPE_UINT32 then
    (read_uint32_value var.value).map (fun v => some (print_unsigned v))
  else if var.type = DBUS_TYPE_INT64 then
    (read_int64_value var.value).map (fun v => some (print_signed v))
  else if var.type = DBUS_TYPE_UINT64 then
    (read_uint64_value var.value).map (fun v => some (print_unsigned v))
  else some (some "<unknown type>")

/-! # Properties -/

/-! ## Property dictionaries -/

/-- The return value of `ni_dbus_process_properties` in terms of the two tests
of its loop body. -/
theorem process_properties_rv_aux {σ : Type} (handlers : List (ni_dbus_dict_entry_handler σ)) :
    ∀ (entries : List ni_dbus_dict_entry) (user_object : σ),
      ((ni_dbus_process_properties entries handlers user_object).rv = 0
        ∨ (ni_dbus_process_properties entries handlers user_object).rv = -EINVAL)
      ∧ ((ni_dbus_process_properties entries handlers user_object).rv = -EINVAL ↔
          ∃ entry ∈ entries, ∃ h, __ni_dbus_get_property_handler handlers entry.key = some h
            ∧ (ni_dbus_unexpected_type h entry = true
                ∨ ni_dbus_unexpected_array_length h entry = true))
  | [], user_object => by
    simp [ni_dbus_process_properties, EINVAL]
  | entry :: rest, user_object => by
    have ih := process_properties_rv_aux handlers rest
    rw [ni_dbus_process_properties]
    cases hh : __ni_dbus_get_property_handler handlers entry.key with
    | none =>
      simp only [List.mem_cons, exists_eq_or_imp, hh]
      simpa using ih user_object
    | some h =>
      simp only [List.mem_cons, exists_eq_or_imp, hh, Option.some.injEq, exists_eq_left']
      by_cases h1 : ni_dbus_unexpected_type h entry = true
      · simp [h1]
      · by_cases h2 : ni_dbus_unexpected_array_length h entry = true
        · simp [h1, h2]
        · cases hs : h.set with
          | none => simpa [h1, h2] using ih user_object
          | some set => simpa [h1, h2] using ih (set entry user_object)

/-- The two tests of the loop body, spelled out. -/
theorem unexpected_iff {σ : Type} (h : ni_dbus_dict_entry_handler σ) (entry : ni_dbus_dict_entry) :
    (ni_dbus_unexpected_type h entry = true ∨ ni_dbus_unexpected_array_length h entry = true) ↔
      (h.type ≠ entry.type
        ∨ (entry.type = DBUS_TYPE_ARRAY ∧ entry.array_type ≠ h.array_type)
        ∨ (entry.type = DBUS_TYPE_ARRAY ∧ h.array_len_max ≠ 0
            ∧ (entry.array_len < h.array_len_min ∨ h.array_len_max < entry.array_len))) := by
  simp only [ni_dbus_unexpected_type, ni_dbus_unexpected_array_length, Bool.or_eq_true,
    Bool.and_eq_true, decide_eq_true_eq]
  by_cases ht : h.type = entry.type
  · rw [ht]
    constructor
    · rintro ((h1 | h1) | h1)
      · exact absurd rfl h1
      · exact Or.inr (Or.inl ⟨h1.1, fun e => h1.2 e.symm⟩)
      · exact Or.inr (Or.inr ⟨h1.1.1, h1.1.2, h1.2⟩)
    · rintro (h1 | h1 | h1)
      · exact absurd rfl h1
      · exact Or.inl (Or.inr ⟨h1.1, fun e => h1.2 e.symm⟩)
      · exact Or.inr ⟨⟨h1.1, h1.2.1⟩, h1.2.2⟩
  · constructor
    · intro _
      exact Or.inl ht
    · intro _
      exact Or.inl (Or.inl ht)

/-- C1: `ni_dbus_process_properties` returns 0 or `-EINVAL`; it returns `-EINVAL`
exactly when the dict has an entry whose key has a handler and whose type is
not the handler's, or which is an array with another element type than the
handler's `array_type`, or which is an array with a length outside
`[array_len_min, array_len_max]` while `array_len_max` is not 0; and an entry
of the right type and element type is accepted with every array length by a
handler with `array_len_max = 0`. -/
theorem ni_dbus_process_properties_returns {σ : Type} (entries : List ni_dbus_dict_entry)
    (handlers : List (ni_dbus_dict_entry_handler σ)) (user_object : σ) :
    ((ni_dbus_process_properties entries handlers user_object).rv = 0
      ∨ (ni_dbus_process_properties entries handlers user_object).rv = -EINVAL)
    ∧ ((ni_dbus_process_properties entries handlers user_object).rv = -EINVAL ↔
        ∃ entry ∈ entries, ∃ h, __ni_dbus_get_property_handler handlers entry.key = some h
          ∧ (h.type ≠ entry.type
              ∨ (entry.type = DBUS_TYPE_ARRAY ∧ entry.array_type ≠ h.array_type)
              ∨ (entry.type = DBUS_TYPE_ARRAY ∧ h.array_len_max ≠ 0
                  ∧ (entry.array_len < h.array_len_min ∨ h.array_len_max < entry.array_len))))
    ∧ (∀ (entry : ni_dbus_dict_entry) (h : ni_dbus_dict_entry_handler σ),
        __ni_dbus_get_property_handler handlers entry.key = some h →
        h.type = entry.type → h.array_type = entry.array_type → h.array_len_max = 0 →
        (ni_dbus_process_properties [entry] handlers user_object).rv = 0) := by
  refine ⟨(process_properties_rv_aux handlers entries user_object).1, ?_, ?_⟩
  · rw [(process_properties_rv_aux handlers entries user_object).2]
    constructor
    · rintro ⟨entry, hmem, h, hh, hbad⟩
      exact ⟨entry, hmem, h, hh, (unexpected_iff h entry).1 hbad⟩
    · rintro ⟨entry, hmem, h, hh, hbad⟩
      exact ⟨entry, hmem, h, hh, (unexpected_iff h entry).2 hbad⟩
  · intro entry h hh ht ha hmax
    have hcases := (process_properties_rv_aux handlers [entry] user_object).1
    have hiff := (process_properties_rv_aux handlers [entry] user_object).2
    rcases hcases with h0 | hbad
    · exact h0
    · exfalso
      obtain ⟨e, hmem, h2, hh2, hb⟩ := hiff.1 hbad
      rw [List.mem_singleton] at hmem
      subst hmem
      rw [hh] at hh2
      cases hh2
      rcases (unexpected_iff h e).1 hb with h1 | h1 | h1
      · exact h1 ht
      · exact h1.2 ha.symm
      · exact h1.2.1 hmax

/-- Witness of C1 -/
theorem ni_dbus_process_properties_returns_witness :
    (ni_dbus_process_properties [⟨"addrs", 97, 115, 7⟩, ⟨"mtu", 115, 0, 0⟩]
        [(⟨"addrs", 97, 115, 0, 0, none⟩ : ni_dbus_dict_entry_handler Unit),
          ⟨"mtu", 117, 0, 0, 0, none⟩] ()).rv = -EINVAL
    ∧ (ni_dbus_process_properties [⟨"addrs", 97, 115, 7⟩]
        [(⟨"addrs", 97, 115, 0, 0, none⟩ : ni_dbus_dict_entry_handler Unit),
          ⟨"mtu", 117, 0, 0, 0, none⟩] ()).rv = 0 := by
  constructor
  · exact ((ni_dbus_process_properties_returns _ _ ()).2.1).2
      ⟨⟨"mtu", 115, 0, 0⟩, by simp, ⟨"mtu", 117, 0, 0, 0, none⟩, by
        simp [__ni_dbus_get_property_handler], Or.inl (by decide)⟩
  · exact (ni_dbus_process_properties_returns [] _ ()).2.2
      ⟨"addrs", 97, 115, 7⟩ ⟨"addrs", 97, 115, 0, 0, none⟩
      (by simp [__ni_dbus_get_property_handler]) rfl rfl rfl

/-! ## Error translation -/

/-- C2: with the `NULL` caller map, the three names of the built-in table are
translated to `EACCES`, `EINVAL` and `EOPNOTSUPP`, and a name that the lookup
does not find in the built-in table is translated to `EIO`. -/
theorem ni_dbus_translate_error_builtin (name : String)
    (hname : ni_parse_int_mapped name __ni_dbus_error_map = none) :
    ni_dbus_translate_error "org.freedesktop.DBus.Error.AccessDenied" none = EACCES
    ∧ ni_dbus_translate_error "org.freedesktop.DBus.Error.InvalidArgs" none = EINVAL
    ∧ ni_dbus_translate_error "org.freedesktop.DBus.Error.UnknownMethod" none = EOPNOTSUPP
    ∧ ni_dbus_translate_error name none = EIO := by
  refine ⟨by decide, by decide, by decide, ?_⟩
  simp [ni_dbus_translate_error, ni_dbus_translate_error_run, hname]

/-- Witness of C2 -/
theorem ni_dbus_translate_error_builtin_witness :
    ni_parse_int_mapped "org.freedesktop.DBus.Error.NoReply" __ni_dbus_error_map = none
    ∧ ni_dbus_translate_error "org.freedesktop.DBus.Error.NoReply" none = EIO :=
  ⟨by decide, (ni_dbus_translate_error_builtin "org.freedesktop.DBus.Error.NoReply" (by decide)).2.2.2⟩

/-- C3, as stated, fails: a caller map that maps the name to `EIO` makes
`ni_dbus_translate_error` return `EIO` although the caller map contains the
name; and a caller map that maps the name to a code above `INT_MAX` makes it
return the code minus `2 ^ 32`, not the code. -/
theorem ni_dbus_translate_error_eio_from_caller_map :
    ¬ (ni_dbus_translate_error "org.freedesktop.DBus.Error.NoReply"
          (some [⟨"org.freedesktop.DBus.Error.NoReply", 5⟩]) = EIO →
        ni_parse_int_mapped "org.freedesktop.DBus.Error.NoReply"
            [⟨"org.freedesktop.DBus.Error.NoReply", 5⟩] = none
          ∧ ni_parse_int_mapped "org.freedesktop.DBus.Error.NoReply" __ni_dbus_error_map = none)
    ∧ ¬ (ni_parse_int_mapped "org.freedesktop.DBus.Error.NoReply"
            [⟨"org.freedesktop.DBus.Error.NoReply", 4294967295⟩] = some 4294967295 →
          ni_dbus_translate_error "org.freedesktop.DBus.Error.NoReply"
            (some [⟨"org.freedesktop.DBus.Error.NoReply", 4294967295⟩]) = 4294967295)
    ∧ ni_dbus_translate_error "org.freedesktop.DBus.Error.NoReply"
        (some [⟨"org.freedesktop.DBus.Error.NoReply", 4294967295⟩]) = -1 := by
  decide

/-- The conversion to `int` keeps a value up to `INT_MAX`. -/
theorem int_of_unsigned_small (v : Nat) (hv : v < 2 ^ 31) : int_of_unsigned v = (v : Int) := by
  have h32 : v % 2 ^ 32 = v := Nat.mod_eq_of_lt (by omega)
  unfold int_of_unsigned
  rw [h32, if_pos hv]

/-- The conversion to `int` of an `unsigned int` value above `INT_MAX`. -/
theorem int_of_unsigned_large (v : Nat) (hlo : 2 ^ 31 ≤ v) (hhi : v < 2 ^ 32) :
    int_of_unsigned v = (v : Int) - 2 ^ 32 := by
  have h32 : v % 2 ^ 32 = v := Nat.mod_eq_of_lt hhi
  unfold int_of_unsigned
  rw [h32, if_neg (by omega)]

/-- The codes of the built-in table. -/
theorem builtin_codes (name : String) (code : Nat)
    (h : ni_parse_int_mapped name __ni_dbus_error_map = some code) :
    code = 13 ∨ code = 22 ∨ code = 95 := by
  simp only [ni_parse_int_mapped, __ni_dbus_error_map] at h
  split_ifs at h <;> simp_all

/-- A code of the built-in table is returned as it is and is not `EIO`. -/
theorem builtin_code_returned (name : String) (code : Nat)
    (h : ni_parse_int_mapped name __ni_dbus_error_map = some code) :
    int_of_unsigned code = (code : Int) ∧ int_of_unsigned code ≠ EIO := by
  rcases builtin_codes name code h with hc | hc | hc <;> subst hc <;> decide

/-- The result of `ni_dbus_translate_error` when the caller map contains the name. -/
theorem translate_error_caller (name : String) (map : List ni_intmap_t) (code : Nat)
    (h : ni_parse_int_mapped name map = some code) :
    ni_dbus_translate_error_run name (some map)
      = ([ni_dbus_error_table.caller], int_of_unsigned code) := by
  simp [ni_dbus_translate_error_run, h]

/-- The result of `ni_dbus_translate_error` when the built-in table is reached
and contains the name. -/
theorem translate_error_builtin (name : String) (error_map : Option (List ni_intmap_t))
    (code : Nat)
    (hmap : ∀ map, error_map = some map → ni_parse_int_mapped name map = none)
    (h : ni_parse_int_mapped name __ni_dbus_error_map = some code) :
    (ni_dbus_translate_error_run name error_map).2 = int_of_unsigned code := by
  cases error_map with
  | none => simp [ni_dbus_translate_error_run, h]
  | some m => simp [ni_dbus_translate_error_run, h, hmap m rfl]

/-- The result of `ni_dbus_translate_error` when no table contains the name. -/
theorem translate_error_fallback (name : String) (error_map : Option (List ni_intmap_t))
    (hmap : ∀ map, error_map = some map → ni_parse_int_mapped name map = none)
    (h : ni_parse_int_mapped name __ni_dbus_error_map = none) :
    (ni_dbus_translate_error_run name error_map).2 = EIO := by
  cases error_map with
  | none => simp [ni_dbus_translate_error_run, h]
  | some m => simp [ni_dbus_translate_error_run, h, hmap m rfl]

/-- C3, amended: a caller map that contains the name decides the result,
whatever the built-in table says: the value returned is the code of the
caller map converted to `int`, which is the code itself up to `INT_MAX` and
the code minus `2 ^ 32` above it; the built-in table is consulted only when
the caller map is `NULL` or does not contain the name, and then its code is
returned when it contains the name; `EIO` is returned when neither contains
the name, and otherwise only when the caller map maps the name to a code
that is returned as `EIO`. -/
theorem ni_dbus_translate_error_priority (name : String)
    (error_map : Option (List ni_intmap_t)) :
    (∀ map code, error_map = some map → ni_parse_int_mapped name map = some code →
        ni_dbus_translate_error name error_map = int_of_unsigned code
        ∧ (code < 2 ^ 31 → ni_dbus_translate_error name error_map = (code : Int))
        ∧ (2 ^ 31 ≤ code → code < 2 ^ 32 →
            ni_dbus_translate_error name error_map = (code : Int) - 2 ^ 32))
    ∧ (ni_dbus_error_table.builtin ∈ (ni_dbus_translate_error_run name error_map).1 →
        error_map = none ∨ ∃ map, error_map = some map ∧ ni_parse_int_mapped name map = none)
    ∧ (∀ code, (∀ map, error_map = some map → ni_parse_int_mapped name map = none) →
        ni_parse_int_mapped name __ni_dbus_error_map = some code →
        ni_dbus_translate_error name error_map = (code : Int))
    ∧ ((∀ map, error_map = some map → ni_parse_int_mapped name map = none) →
        ni_parse_int_mapped name __ni_dbus_error_map = none →
        ni_dbus_translate_error name error_map = EIO)
    ∧ (ni_dbus_translate_error name error_map = EIO →
        ((∀ map, error_map = some map → ni_parse_int_mapped name map = none)
          ∧ ni_parse_int_mapped name __ni_dbus_error_map = none)
        ∨ ∃ map code, error_map = some map ∧ ni_parse_int_mapped name map = some code
            ∧ int_of_unsigned code = EIO) := by
  have hrun : ni_dbus_translate_error name error_map
      = (ni_dbus_translate_error_run name error_map).2 := rfl
  refine ⟨?_, ?_, ?_, ?_, ?_⟩
  · intro map code hmap hcode
    subst hmap
    have h : ni_dbus_translate_error name (some map) = int_of_unsigned code := by
      rw [hrun, translate_error_caller name map code hcode]
    refine ⟨h, fun hlt => ?_, fun hlo hhi => ?_⟩
    · rw [h, int_of_unsigned_small code hlt]
    · rw [h, int_of_unsigned_large code hlo hhi]
  · intro hmem
    cases error_map with
    | none => exact Or.inl rfl
    | some m =>
      cases hm : ni_parse_int_mapped name m with
      | none => exact Or.inr ⟨m, rfl, hm⟩
      | some c =>
        rw [translate_error_caller name m c hm] at hmem
        simp at hmem
  · intro code hmap hcode
    rw [hrun, translate_error_builtin name error_map code hmap hcode]
    exact (builtin_code_returned name code hcode).1
  · intro hmap hnone
    rw [hrun]
    exact translate_error_fallback name error_map hmap hnone
  · intro heio
    cases error_map with
    | none =>
      cases hb : ni_parse_int_mapped name __ni_dbus_error_map with
      | none =>
        exact Or.inl ⟨fun map h => (by cases h), rfl⟩
      | some c =>
        rw [hrun, translate_error_builtin name none c (fun map h => by cases h) hb] at heio
        exact absurd heio (builtin_code_returned name c hb).2
    | some m =>
      cases hm : ni_parse_int_mapped name m with
      | some c =>
        rw [hrun, translate_error_caller name m c hm] at heio
        exact Or.inr ⟨m, c, rfl, hm, heio⟩
      | none =>
        have hmap : ∀ map, some m = some map → ni_parse_int_mapped name map = none := by
          intro map h
          cases h
          exact hm
        cases hb : ni_parse_int_mapped name __ni_dbus_error_map with
        | none => exact Or.inl ⟨hmap, rfl⟩
        | some c =>
          rw [hrun, translate_error_builtin name (some m) c hmap hb] at heio
          exact absurd heio (builtin_code_returned name c hb).2

/-- Witness of C3, amended: the caller map wins over the built-in table for
`org.freedesktop.DBus.Error.AccessDenied`. -/
theorem ni_dbus_translate_error_priority_witness :
    ni_parse_int_mapped "org.freedesktop.DBus.Error.AccessDenied" __ni_dbus_error_map = some 13
    ∧ ni_dbus_translate_error "org.freedesktop.DBus.Error.AccessDenied"
        (some [⟨"org.freedesktop.DBus.Error.AccessDenied", 1⟩]) = 1 :=
  ⟨by decide,
    ((ni_dbus_translate_error_priority "org.freedesktop.DBus.Error.AccessDenied"
      (some [⟨"org.freedesktop.DBus.Error.AccessDenied", 1⟩])).1
        [⟨"org.freedesktop.DBus.Error.AccessDenied", 1⟩] 1 rfl (by decide)).2.1 (by decide)⟩

/-! ## Variants -/

/-- After `__ni_dbus_variant_change_type` the variant has the type asked for. -/
theorem change_type_type (var : ni_dbus_variant_t) (new_type : Int) :
    (__ni_dbus_variant_change_type var new_type).type = new_type := by
  unfold __ni_dbus_variant_change_type
  split_ifs <;> simp_all

/-- C4: what the code does where the specification asks for `DBUS_TYPE_STRING`: after
`ni_dbus_variant_set_string(var, value)` the string member holds a copy of
`value`, but the type of the variant is `DBUS_TYPE_BOOLEAN`, for every prior
state, and so is not `DBUS_TYPE_STRING`. -/
theorem ni_dbus_variant_set_string_type (var : ni_dbus_variant_t) (value : String) :
    (ni_dbus_variant_set_string var (some value)).type = DBUS_TYPE_BOOLEAN
    ∧ (ni_dbus_variant_set_string var (some value)).type ≠ DBUS_TYPE_STRING
    ∧ (ni_dbus_variant_set_string var (some value)).value
        = ni_dbus_variant_value.string_value (some value) := by
  have ht : (ni_dbus_variant_set_string var (some value)).type = DBUS_TYPE_BOOLEAN := by
    simp [ni_dbus_variant_set_string, change_type_type]
  refine ⟨ht, ?_, ?_⟩
  · rw [ht]
    decide
  · simp [ni_dbus_variant_set_string, ni_string_dup]

/-- C5: each scalar setter leaves the variant with the type tag of the setter
and with the value given in the member of the setter. -/
theorem ni_dbus_variant_set_scalar (var : ni_dbus_variant_t) (n : Nat) (i : Int) :
    ((ni_dbus_variant_set_bool var n).type = DBUS_TYPE_BOOLEAN
      ∧ (ni_dbus_variant_set_bool var n).value = ni_dbus_variant_value.bool_value n)
    ∧ ((ni_dbus_variant_set_byte var n).type = DBUS_TYPE_BYTE
      ∧ (ni_dbus_variant_set_byte var n).value = ni_dbus_variant_value.byte_value n)
    ∧ ((ni_dbus_variant_set_uint16 var n).type = DBUS_TYPE_UINT16
      ∧ (ni_dbus_variant_set_uint16 var n).value = ni_dbus_variant_value.uint16_value n)
    ∧ ((ni_dbus_variant_set_int16 var i).type = DBUS_TYPE_INT16
      ∧ (ni_dbus_variant_set_int16 var i).value = ni_dbus_variant_value.int16_value i)
    ∧ ((ni_dbus_variant_set_uint32 var n).type = DBUS_TYPE_UINT32
      ∧ (ni_dbus_variant_set_uint32 var n).value = ni_dbus_variant_value.uint32_value n)
    ∧ ((ni_dbus_variant_set_int32 var i).type = DBUS_TYPE_INT32
      ∧ (ni_dbus_variant_set_int32 var i).value = ni_dbus_variant_value.int32_value i)
    ∧ ((ni_dbus_variant_set_uint64 var n).type = DBUS_TYPE_UINT64
      ∧ (ni_dbus_variant_set_uint64 var n).value = ni_dbus_variant_value.uint64_value n)
    ∧ ((ni_dbus_variant_set_int64 var i).type = DBUS_TYPE_INT64
      ∧ (ni_dbus_variant_set_int64 var i).value = ni_dbus_variant_value.int64_value i) := by
  simp [ni_dbus_variant_set_bool, ni_dbus_variant_set_byte, ni_dbus_variant_set_uint16,
    ni_dbus_variant_set_int16, ni_dbus_variant_set_uint32, ni_dbus_variant_set_int32,
    ni_dbus_variant_set_uint64, ni_dbus_variant_set_int64, change_type_type]

/-- Cell `i` of a block after `realloc` to `n` cells, for `i < n`. -/
theorem realloc_cells_get (cells : List (Option String)) (n i : Nat) (hi : i < n) :
    ((realloc_cells cells n).get? i).join = (cells.get? i).join := by
  unfold realloc_cells
  by_cases hc : i < cells.length
  · rw [List.get?_eq_getElem?, List.get?_eq_getElem?, List.getElem?_append_left (by simp; omega)]
    rw [List.getElem?_take_of_lt hi]
  · have hc2 : cells.length ≤ i := Nat.le_of_not_lt hc
    rw [List.get?_eq_getElem?, List.get?_eq_getElem?,
      List.getElem?_append_right (by simp; omega)]
    rw [List.getElem?_eq_none hc2]
    simp only [List.length_take, Option.join]
    rw [List.getElem?_replicate]
    split_ifs <;> rfl

/-- A block has `n` cells after `realloc` to `n` cells. -/
theorem realloc_cells_length (cells : List (Option String)) (n : Nat) :
    (realloc_cells cells n).length = n := by
  unfold realloc_cells
  simp
  omega

/-- C6: `ni_dbus_variant_append_string_array(var, s)` returns `FALSE` and leaves
the variant as it is when the variant is not an array of strings; otherwise it
returns `TRUE`, `array.len` grows by one, the new last element is a copy of `s`
(the empty string for a `NULL` `s`), and the type, the element type and the
elements before the new one are the same as before. -/
theorem ni_dbus_variant_append_string_array_spec (var : ni_dbus_variant_t) (s : Option String) :
    ((var.type ≠ DBUS_TYPE_ARRAY ∨ var.array.element_type ≠ DBUS_TYPE_STRING) →
        ni_dbus_variant_append_string_array var s = (FALSE, var))
    ∧ ((var.type = DBUS_TYPE_ARRAY ∧ var.array.element_type = DBUS_TYPE_STRING) →
        (ni_dbus_variant_append_string_array var s).1 = TRUE
        ∧ (ni_dbus_variant_append_string_array var s).2.array.len = var.array.len + 1
        ∧ string_array_at (ni_dbus_variant_append_string_array var s).2 var.array.len
            = some (s.getD "")
        ∧ (ni_dbus_variant_append_string_array var s).2.type = var.type
        ∧ (ni_dbus_variant_append_string_array var s).2.array.element_type
            = var.array.element_type
        ∧ ∀ i, i < var.array.len →
            string_array_at (ni_dbus_variant_append_string_array var s).2 i
              = string_array_at var i) := by
  constructor
  · intro h
    simp [ni_dbus_variant_append_string_array, h]
  · rintro ⟨h1, h2⟩
    have hc : ¬ (var.type ≠ DBUS_TYPE_ARRAY ∨ var.array.element_type ≠ DBUS_TYPE_STRING) := by
      simp [h1, h2]
    simp only [ni_dbus_variant_append_string_array, if_neg hc]
    refine ⟨trivial, trivial, ?_, trivial, trivial, ?_⟩
    · simp only [string_array_at, string_array_cells]
      rw [List.get?_eq_getElem?, List.getElem?_set_self (by rw [realloc_cells_length]; omega)]
      cases s <;> rfl
    · intro i hi
      simp only [string_array_at]
      rw [← realloc_cells_get (string_array_cells var) (var.array.len + 1) i (by omega)]
      simp only [string_array_cells]
      rw [List.get?_eq_getElem?, List.get?_eq_getElem?, List.getElem?_set_ne (by omega)]

/-- Witness of C6 -/
theorem ni_dbus_variant_append_string_array_spec_witness :
    ni_dbus_variant_append_string_array ⟨115, ⟨0, 0⟩, ni_dbus_variant_value.string_value (some "lo")⟩
        (some "eth0")
      = (FALSE, ⟨115, ⟨0, 0⟩, ni_dbus_variant_value.string_value (some "lo")⟩)
    ∧ (ni_dbus_variant_append_string_array
        ⟨97, ⟨115, 1⟩, ni_dbus_variant_value.string_array_value [some "lo"]⟩ none).2.array.len = 2 :=
  ⟨(ni_dbus_variant_append_string_array_spec _ _).1 (Or.inl (by decide)),
    ((ni_dbus_variant_append_string_array_spec
      ⟨97, ⟨115, 1⟩, ni_dbus_variant_value.string_array_value [some "lo"]⟩ none).2
        ⟨by decide, by decide⟩).2.1⟩

/-- C7: after `ni_dbus_variant_set_string_array(var, len, data)` the variant is
an array of strings with `array.len = len`, element `i` is a copy of `data[i]`
for every `i < len`, the empty string standing for a `NULL` `data[i]`, and
with `len = 0` the array has no cell. -/
theorem ni_dbus_variant_set_string_array_spec (var : ni_dbus_variant_t) (len : Nat)
    (data : Nat → Option String) :
    (ni_dbus_variant_set_string_array var len data).type = DBUS_TYPE_ARRAY
    ∧ (ni_dbus_variant_set_string_array var len data).array.element_type = DBUS_TYPE_STRING
    ∧ (ni_dbus_variant_set_string_array var len data).array.len = len
    ∧ (string_array_cells (ni_dbus_variant_set_string_array var len data)).length = len
    ∧ (∀ i, i < len →
        string_array_at (ni_dbus_variant_set_string_array var len data) i
          = some ((data i).getD ""))
    ∧ (len = 0 →
        (ni_dbus_variant_set_string_array var len data).array.len = 0
        ∧ string_array_cells (ni_dbus_variant_set_string_array var len data) = []) := by
  by_cases hl : len = 0
  · subst hl
    simp [ni_dbus_variant_set_string_array, ni_dbus_variant_destroy, string_array_cells]
  · simp only [ni_dbus_variant_set_string_array, if_pos hl, string_array_at, string_array_cells]
    refine ⟨trivial, trivial, trivial, by simp, ?_, fun h => absurd h hl⟩
    intro i hi
    rw [List.get?_eq_getElem?, List.getElem?_map, List.getElem?_range hi]
    cases hd : data i <;> simp [hd, xstrdup_or_empty]

/-- Witness of C7 -/
theorem ni_dbus_variant_set_string_array_spec_witness :
    string_array_at (ni_dbus_variant_set_string_array
        (ni_dbus_variant_set_uint32 ni_dbus_variant_zero 7) 2
        (fun i => if i = 0 then some "eth0" else none)) 1 = some ""
    ∧ string_array_cells (ni_dbus_variant_set_string_array
        (ni_dbus_variant_set_uint32 ni_dbus_variant_zero 7) 0 (fun _ => none)) = [] :=
  ⟨(ni_dbus_variant_set_string_array_spec _ 2 _).2.2.2.2.1 1 (by decide),
    ((ni_dbus_variant_set_string_array_spec _ 0 _).2.2.2.2.2 rfl).2⟩

/-! ## Helpers of `netinfo_priv.h` -/

/-- C8: `__ni_interface_address_info(ifp, af)` returns the IPv4 sub-record of the
interface for `AF_INET`, its IPv6 sub-record for `AF_INET6` and `NULL` for
every other family; the two pointers are different and the interface is as
it was before the call. -/
theorem ni_interface_address_info_spec {α β : Type} (ifp : ni_interface_t α β) (af : Int) :
    (__ni_interface_address_info ifp af).1 = ifp
    ∧ (af = AF_INET →
        (__ni_interface_address_info ifp af).2 = some ni_afinfo_ref.ipv4
        ∧ (__ni_interface_address_info ifp af).2.map (fun r => r.deref ifp) = some ifp.ipv4)
    ∧ (af = AF_INET6 →
        (__ni_interface_address_info ifp af).2 = some ni_afinfo_ref.ipv6
        ∧ (__ni_interface_address_info ifp af).2.map (fun r => r.deref ifp) = some ifp.ipv6)
    ∧ (af ≠ AF_INET → af ≠ AF_INET6 → (__ni_interface_address_info ifp af).2 = none)
    ∧ (__ni_interface_address_info ifp AF_INET).2 ≠ (__ni_interface_address_info ifp AF_INET6).2 := by
  refine ⟨?_, ?_, ?_, ?_, ?_⟩
  · unfold __ni_interface_address_info
    split_ifs <;> rfl
  · intro h
    subst h
    exact ⟨rfl, rfl⟩
  · intro h
    subst h
    exact ⟨rfl, rfl⟩
  · intro h4 h6
    simp [__ni_interface_address_info, h4, h6]
  · simp [__ni_interface_address_info, AF_INET, AF_INET6]

/-- Witness of C8 -/
theorem ni_interface_address_info_spec_witness :
    (__ni_interface_address_info (⟨"192.0.2.1", "2001:db8::1", ()⟩ : ni_interface_t String Unit)
        AF_INET6).2.map (fun r => r.deref ⟨"192.0.2.1", "2001:db8::1", ()⟩) = some "2001:db8::1"
    ∧ (__ni_interface_address_info (⟨"192.0.2.1", "2001:db8::1", ()⟩ : ni_interface_t String Unit)
        17).2 = none :=
  ⟨((ni_interface_address_info_spec _ AF_INET6).2.2.1 rfl).2,
    (ni_interface_address_info_spec _ 17).2.2.2.1 (by decide) (by decide)⟩

/-- C9: `xstreq(a, b)` always returns, without reaching `strcmp` with a `NULL`
argument; its result is not zero exactly when `a` and `b` are both `NULL` or
both strings with the same contents; a `NULL` string and a string, the empty
one included, are never equal. -/
theorem xstreq_spec (a b : Option String) :
    (∃ r, xstreq a b = some r
      ∧ (r ≠ 0 ↔ (a = none ∧ b = none) ∨ ∃ x y, a = some x ∧ b = some y ∧ x = y))
    ∧ xstreq a b ≠ none
    ∧ (¬ (a = none ∨ b = none) → ∃ r, strcmp a b = some r)
    ∧ (∀ s : String, xstreq none (some s) = some 0 ∧ xstreq (some s) none = some 0) := by
  refine ⟨?_, ?_, ?_, ?_⟩
  · cases a with
    | none =>
      cases b with
      | none => exact ⟨1, by simp [xstreq], by simp⟩
      | some y => exact ⟨0, by simp [xstreq], by simp⟩
    | some x =>
      cases b with
      | none => exact ⟨0, by simp [xstreq], by simp⟩
      | some y =>
        by_cases hxy : x = y
        · exact ⟨1, by simp [xstreq, strcmp, hxy], by simp [hxy]⟩
        · refine ⟨0, ?_, by simp [hxy]⟩
          simp only [xstreq, strcmp, if_neg hxy]
          split_ifs <;> simp_all
  · cases a <;> cases b <;> simp [xstreq, strcmp]
  · cases a <;> cases b <;> simp [strcmp]
  · intro s
    simp [xstreq]

/-- Witness of C9 -/
theorem xstreq_spec_witness :
    xstreq none (some "") = some 0 ∧ ∃ r, strcmp (some "eth0") (some "eth1") = some r :=
  ⟨((xstreq_spec none none).2.2.2 "").1, (xstreq_spec (some "eth0") (some "eth1")).2.2.1 (by simp)⟩

/-! ## Retransmission timeouts -/

/-- A retry changes neither the increment nor the ceiling. -/
theorem ni_timeout_retries_params (n : Nat) (p : ni_timeout_param_t) :
    (ni_timeout_retries n p).increment = p.increment
    ∧ (ni_timeout_retries n p).max_timeout = p.max_timeout := by
  induction n with
  | zero => exact ⟨rfl, rfl⟩
  | succ k ih => simpa [ni_timeout_retries, ni_timeout_retry] using ih

/-- C10, as stated, fails for `N = 0`: with an initial timeout above the
ceiling the timeout after 0 retries is the initial timeout, not
`min(timeout_0, max)`, and the first retry lowers it. -/
theorem ni_timeout_retries_not_closed_form :
    ¬ ((ni_timeout_retries 0 ⟨10, 1, 0, 5, ⟨0, 0⟩⟩).timeout = min (10 + 0 * 1) 5)
    ∧ ¬ ((ni_timeout_retries 0 ⟨10, 1, 0, 5, ⟨0, 0⟩⟩).timeout
          ≤ (ni_timeout_retries 1 ⟨10, 1, 0, 5, ⟨0, 0⟩⟩).timeout) := by
  decide

/-- The timeout after at least one retry. -/
theorem ni_timeout_retries_succ (p : ni_timeout_param_t) (k : Nat) :
    (ni_timeout_retries (k + 1) p).timeout
      = min (p.timeout + (k + 1) * p.increment) p.max_timeout := by
  induction k with
  | zero => simp [ni_timeout_retries, ni_timeout_retry]
  | succ k ih =>
    have hp := ni_timeout_retries_params (k + 1) p
    rw [ni_timeout_retries]
    simp only [ni_timeout_retry, ih, hp.1, hp.2]
    rw [Nat.succ_mul (k + 1)]
    omega

/-- C10, amended: after `N >= 1` retries the timeout is
`min(timeout_0 + N * increment, max_timeout)`, whatever the initial timeout;
after 0 retries it is so when the initial timeout is at most the ceiling. The
timeout after `M` retries is at most the timeout after `N >= M` retries from
the first retry on (`M >= 1`), and from `M = 0` on when the initial timeout
is at most the ceiling. -/
theorem ni_timeout_retries_closed_form (p : ni_timeout_param_t) (N : Nat) :
    ((1 ≤ N ∨ p.timeout ≤ p.max_timeout) →
        (ni_timeout_retries N p).timeout = min (p.timeout + N * p.increment) p.max_timeout)
    ∧ (∀ M, M ≤ N → (1 ≤ M ∨ M = N ∨ p.timeout ≤ p.max_timeout) →
        (ni_timeout_retries M p).timeout ≤ (ni_timeout_retries N p).timeout) := by
  have closed : ∀ n, (1 ≤ n ∨ p.timeout ≤ p.max_timeout) →
      (ni_timeout_retries n p).timeout = min (p.timeout + n * p.increment) p.max_timeout := by
    intro n hn
    cases n with
    | zero =>
      rcases hn with h | h
      · omega
      · simp [ni_timeout_retries, h]
    | succ k => exact ni_timeout_retries_succ p k
  refine ⟨closed N, ?_⟩
  intro M hMN hM
  by_cases heq : M = N
  · rw [heq]
  · have hM2 : 1 ≤ M ∨ p.timeout ≤ p.max_timeout := by
      rcases hM with h | h | h
      · exact Or.inl h
      · exact absurd h heq
      · exact Or.inr h
    have hN : 1 ≤ N ∨ p.timeout ≤ p.max_timeout := by
      rcases hM2 with h | h
      · exact Or.inl (by omega)
      · exact Or.inr h
    rw [closed M hM2, closed N hN]
    have hmul : M * p.increment ≤ N * p.increment := Nat.mul_le_mul_right _ hMN
    omega

/-- Witness of C10, amended: three retries from an initial timeout above the
ceiling, and no retry from one below it. -/
theorem ni_timeout_retries_closed_form_witness :
    (ni_timeout_retries 3 ⟨10, 1, 0, 5, ⟨0, 0⟩⟩).timeout = min (10 + 3 * 1) 5
    ∧ (ni_timeout_retries 0 ⟨1, 2, 0, 6, ⟨0, 0⟩⟩).timeout = min (1 + 0 * 2) 6
    ∧ (ni_timeout_retries 1 ⟨10, 1, 0, 5, ⟨0, 0⟩⟩).timeout
        ≤ (ni_timeout_retries 3 ⟨10, 1, 0, 5, ⟨0, 0⟩⟩).timeout :=
  ⟨(ni_timeout_retries_closed_form ⟨10, 1, 0, 5, ⟨0, 0⟩⟩ 3).1 (Or.inl (by decide)),
    (ni_timeout_retries_closed_form ⟨1, 2, 0, 6, ⟨0, 0⟩⟩ 0).1 (Or.inr (by decide)),
    (ni_timeout_retries_closed_form ⟨10, 1, 0, 5, ⟨0, 0⟩⟩ 3).2 1 (by decide)
      (Or.inl (by decide))⟩

/-! ## Deserializing a message -/

/-- Writing cell `argc` leaves the other cells as they are. -/
theorem update_other (argv : Nat → ni_dbus_variant_t) (argc i : Nat) (cell : ni_dbus_variant_t)
    (h : i ≠ argc) : Function.update argv argc cell i = argv i := by
  simp [Function.update, h]

/-- One pass of the loop of `ni_dbus_message_get_args_variants` whose decoding fails. -/
theorem get_args_loop_fail {α : Type}
    (gvd : Option α → ni_dbus_variant_t → Bool × ni_dbus_variant_t)
    (k : Nat) (iter : List α) (argc : Nat) (argv : Nat → ni_dbus_variant_t)
    (h : (gvd iter.head? (argv argc)).1 = false) :
    ni_dbus_message_get_args_loop gvd (k + 1) iter argc argv
      = (-1, Function.update argv argc (gvd iter.head? (argv argc)).2) := by
  simp [ni_dbus_message_get_args_loop, h]

/-- One pass of the loop on the last argument of the message, or on a message
without arguments, when the decoding succeeds. -/
theorem get_args_loop_last {α : Type}
    (gvd : Option α → ni_dbus_variant_t → Bool × ni_dbus_variant_t)
    (k : Nat) (iter : List α) (argc : Nat) (argv : Nat → ni_dbus_variant_t)
    (h : (gvd iter.head? (argv argc)).1 = true) (hlen : iter.length ≤ 1) :
    ni_dbus_message_get_args_loop gvd (k + 1) iter argc argv
      = ((argc : Int), Function.update argv argc (gvd iter.head? (argv argc)).2) := by
  match iter, hlen with
  | [], _ => simp_all [ni_dbus_message_get_args_loop, dbus_message_iter_next]
  | [a], _ => simp_all [ni_dbus_message_get_args_loop, dbus_message_iter_next]

/-- One pass of the loop on an argument that has a successor, when the
decoding succeeds. -/
theorem get_args_loop_more {α : Type}
    (gvd : Option α → ni_dbus_variant_t → Bool × ni_dbus_variant_t)
    (k : Nat) (a b : α) (rest : List α) (argc : Nat) (argv : Nat → ni_dbus_variant_t)
    (h : (gvd (some a) (argv argc)).1 = true) :
    ni_dbus_message_get_args_loop gvd (k + 1) (a :: b :: rest) argc argv
      = ni_dbus_message_get_args_loop gvd k (b :: rest) (argc + 1)
          (Function.update argv argc (gvd (some a) (argv argc)).2) := by
  simp [ni_dbus_message_get_args_loop, dbus_message_iter_next, h]

/-- The loop of `ni_dbus_message_get_args_variants`: range of the value
returned, cells written, and the passes that return -1. -/
theorem get_args_loop_spec {α : Type}
    (gvd : Option α → ni_dbus_variant_t → Bool × ni_dbus_variant_t) :
    ∀ (k : Nat) (iter : List α) (argc : Nat) (argv : Nat → ni_dbus_variant_t),
      ((ni_dbus_message_get_args_loop gvd k iter argc argv).1 = -1
        ∨ ((argc : Int) ≤ (ni_dbus_message_get_args_loop gvd k iter argc argv).1
            ∧ (ni_dbus_message_get_args_loop gvd k iter argc argv).1 ≤ (argc : Int) + k))
      ∧ (∀ i, (i < argc ∨ argc + k ≤ i) →
          (ni_dbus_message_get_args_loop gvd k iter argc argv).2 i = argv i)
      ∧ ((ni_dbus_message_get_args_loop gvd k iter argc argv).1 = -1 ↔
          ∃ i, i < k ∧ i < max 1 iter.length
            ∧ (∀ j, j < i → (gvd iter[j]? (argv (argc + j))).1 = true)
            ∧ (gvd iter[i]? (argv (argc + i))).1 = false)
  | 0, iter, argc, argv => by
    refine ⟨Or.inr ?_, ?_, ?_⟩
    · simp [ni_dbus_message_get_args_loop]
    · intro i _
      simp [ni_dbus_message_get_args_loop]
    · simp [ni_dbus_message_get_args_loop]
  | k + 1, iter, argc, argv => by
    have hhead : iter.head? = iter[0]? := by cases iter <;> simp
    by_cases hd : (gvd iter.head? (argv argc)).1 = false
    · rw [get_args_loop_fail gvd k iter argc argv hd]
      refine ⟨Or.inl rfl, ?_, ?_⟩
      · intro i hi
        exact update_other argv argc i _ (by omega)
      · refine ⟨fun _ => ⟨0, by omega, by omega, ?_, ?_⟩, fun _ => rfl⟩
        · intro j hj
          omega
        · rw [← hhead]
          exact hd
    · have hd1 : (gvd iter.head? (argv argc)).1 = true := by simpa using hd
      match iter, hhead, hd1 with
      | [], hhead, hd1 =>
        rw [get_args_loop_last gvd k [] argc argv hd1 (by simp)]
        refine ⟨Or.inr ⟨by simp, by push_cast; omega⟩, ?_, ?_⟩
        · intro i hi
          exact update_other argv argc i _ (by omega)
        · refine ⟨fun h => ?_, ?_⟩
          · simp only at h
            omega
          · rintro ⟨i, _, hi, _, hf⟩
            have hi0 : i = 0 := by simp at hi; omega
            subst hi0
            have hf2 := hf
            simp only [Nat.add_zero] at hf2
            rw [← hhead, hd1] at hf2
            cases hf2
      | [a], hhead, hd1 =>
        rw [get_args_loop_last gvd k [a] argc argv hd1 (by simp)]
        refine ⟨Or.inr ⟨by simp, by push_cast; omega⟩, ?_, ?_⟩
        · intro i hi
          exact update_other argv argc i _ (by omega)
        · refine ⟨fun h => ?_, ?_⟩
          · simp only at h
            omega
          · rintro ⟨i, _, hi, _, hf⟩
            have hi0 : i = 0 := by simp at hi; omega
            subst hi0
            have hf2 := hf
            simp only [Nat.add_zero] at hf2
            rw [← hhead, hd1] at hf2
            cases hf2
      | a :: b :: rest, hhead, hd1 =>
        have hd2 : (gvd (some a) (argv argc)).1 = true := hd1
        rw [get_args_loop_more gvd k a b rest argc argv hd2]
        obtain ⟨ih1, ih2, ih3⟩ := get_args_loop_spec gvd k (b :: rest) (argc + 1)
          (Function.update argv argc (gvd (some a) (argv argc)).2)
        refine ⟨?_, ?_, ?_⟩
        · rcases ih1 with h | ⟨h1, h2⟩
          · exact Or.inl h
          · refine Or.inr ⟨?_, ?_⟩
            · push_cast at h1
              omega
            · push_cast at h2 ⊢
              omega
        · intro i hi
          rw [ih2 i (by omega)]
          exact update_other argv argc i _ (by omega)
        · rw [ih3]
          constructor
          · rintro ⟨i, hik, hil, hpre, hf⟩
            refine ⟨i + 1, by omega, ?_, ?_, ?_⟩
            · simp only [List.length_cons] at hil ⊢
              omega
            · intro j hj
              cases j with
              | zero => simpa using hd2
              | succ j =>
                have := hpre j (by omega)
                rw [update_other argv argc _ _ (by omega)] at this
                simpa [Nat.add_assoc, Nat.add_comm 1 j] using this
            · rw [update_other argv argc _ _ (by omega)] at hf
              simpa [Nat.add_assoc, Nat.add_comm 1 i] using hf
          · rintro ⟨i, hik, hil, hpre, hf⟩
            cases i with
            | zero =>
              simp [hd2] at hf
            | succ i =>
              refine ⟨i, by omega, ?_, ?_, ?_⟩
              · simp only [List.length_cons] at hil ⊢
                omega
              · intro j hj
                have := hpre (j + 1) (by omega)
                rw [update_other argv argc _ _ (by omega)]
                simpa [Nat.add_assoc, Nat.add_comm 1 j] using this
              · rw [update_other argv argc _ _ (by omega)]
                simpa [Nat.add_assoc, Nat.add_comm 1 i] using hf

/-- The loop of `ni_dbus_message_get_args_variants` on arguments that all
decode, with room for all of them: the cells written and the value returned. -/
theorem get_args_loop_all_decoded {α : Type}
    (gvd : Option α → ni_dbus_variant_t → Bool × ni_dbus_variant_t) :
    ∀ (k : Nat) (iter : List α) (argc : Nat) (argv : Nat → ni_dbus_variant_t),
      iter ≠ [] → iter.length ≤ k →
      (∀ i, i < iter.length → (gvd iter[i]? (argv (argc + i))).1 = true) →
      (ni_dbus_message_get_args_loop gvd k iter argc argv).1 = (argc : Int) + iter.length - 1
      ∧ ∀ i, i < iter.length →
          (ni_dbus_message_get_args_loop gvd k iter argc argv).2 (argc + i)
            = (gvd iter[i]? (argv (argc + i))).2
  | 0, iter, argc, argv, hne, hlen, _ => by
    cases iter with
    | nil => exact absurd rfl hne
    | cons a t => simp at hlen
  | k + 1, [], argc, argv, hne, _, _ => absurd rfl hne
  | k + 1, [a], argc, argv, _, _, hall => by
    have h0 : (gvd (some a) (argv argc)).1 = true := by simpa using hall 0 (by simp)
    rw [get_args_loop_last gvd k [a] argc argv h0 (by simp)]
    refine ⟨by simp, ?_⟩
    intro i hi
    have hi0 : i = 0 := by simp at hi; omega
    subst hi0
    simp
  | k + 1, a :: b :: rest, argc, argv, _, hlen, hall => by
    have h0 : (gvd (some a) (argv argc)).1 = true := by simpa using hall 0 (by simp)
    rw [get_args_loop_more gvd k a b rest argc argv h0]
    have hall2 : ∀ i, i < (b :: rest).length →
        (gvd (b :: rest)[i]? (Function.update argv argc (gvd (some a) (argv argc)).2
          (argc + 1 + i))).1 = true := by
      intro i hi
      rw [update_other argv argc _ _ (by omega)]
      have := hall (i + 1) (by simp at hi ⊢; omega)
      simpa [Nat.add_assoc, Nat.add_comm 1 i] using this
    obtain ⟨ih1, ih2⟩ := get_args_loop_all_decoded gvd k (b :: rest) (argc + 1)
      (Function.update argv argc (gvd (some a) (argv argc)).2) (by simp)
      (by simp at hlen ⊢; omega) hall2
    refine ⟨?_, ?_⟩
    · rw [ih1]
      simp only [List.length_cons]
      push_cast
      omega
    · intro i hi
      cases i with
      | zero =>
        rw [(get_args_loop_spec gvd k (b :: rest) (argc + 1) _).2.1 (argc + 0) (by omega)]
        simp
      | succ i =>
        have := ih2 i (by simp at hi ⊢; omega)
        rw [update_other argv argc _ _ (by omega)] at this
        simpa [Nat.add_assoc, Nat.add_comm 1 i] using this

/-- C11: what the code does where the specification asks for the number of arguments
stored: for a message of `n >= 1` arguments that all decode and `max_args >= n`,
`ni_dbus_message_get_args_variants` stores argument `i` in `argv[i]` for every
`i < n` and leaves the other cells alone, but the value it returns is `n - 1`,
not `n`. -/
theorem ni_dbus_message_get_args_variants_all_decoded {α : Type}
    (get_variant_data : Option α → ni_dbus_variant_t → Bool × ni_dbus_variant_t)
    (msg : List α) (argv : Nat → ni_dbus_variant_t) (max_args : Nat)
    (hn : 1 ≤ msg.length) (hmax : msg.length ≤ max_args)
    (hall : ∀ i, i < msg.length → (get_variant_data msg[i]? (argv i)).1 = true) :
    (∀ i, i < msg.length →
        (ni_dbus_message_get_args_variants get_variant_data msg argv max_args).2 i
          = (get_variant_data msg[i]? (argv i)).2)
    ∧ (∀ i, max_args ≤ i →
        (ni_dbus_message_get_args_variants get_variant_data msg argv max_args).2 i = argv i)
    ∧ (ni_dbus_message_get_args_variants get_variant_data msg argv max_args).1
        = (msg.length : Int) - 1
    ∧ (ni_dbus_message_get_args_variants get_variant_data msg argv max_args).1
        ≠ (msg.length : Int) := by
  have hne : msg ≠ [] := by
    intro h
    rw [h] at hn
    simp at hn
  obtain ⟨h1, h2⟩ := get_args_loop_all_decoded get_variant_data max_args msg 0 argv hne hmax
    (by simpa using hall)
  have hb := (get_args_loop_spec get_variant_data max_args msg 0 argv).2.1
  unfold ni_dbus_message_get_args_variants
  refine ⟨?_, ?_, ?_, ?_⟩
  · intro i hi
    simpa using h2 i hi
  · intro i hi
    exact hb i (Or.inr (by omega))
  · rw [h1]
    simp
  · rw [h1]
    simp

/-- Witness of C11: a message with the one argument `eth0`, decoded by a
helper that accepts every argument, and `max_args = 1`: one argument is
stored and 0 is returned. When `max_args` ends the loop, as for three
arguments and `max_args = 2`, the value returned is the number of arguments
stored. -/
theorem ni_dbus_message_get_args_variants_all_decoded_witness :
    (ni_dbus_message_get_args_variants
      (fun (arg : Option String) (_ : ni_dbus_variant_t) =>
        (true, (⟨115, ⟨0, 0⟩, ni_dbus_variant_value.string_value arg⟩ : ni_dbus_variant_t)))
      ["eth0"] (fun _ => ni_dbus_variant_zero) 1).1 = 0
    ∧ (ni_dbus_message_get_args_variants
      (fun (arg : Option String) (_ : ni_dbus_variant_t) =>
        (true, (⟨115, ⟨0, 0⟩, ni_dbus_variant_value.string_value arg⟩ : ni_dbus_variant_t)))
      ["eth0", "lo", "br0"] (fun _ => ni_dbus_variant_zero) 2).1 = 2 := by
  have h := (ni_dbus_message_get_args_variants_all_decoded
    (fun (arg : Option String) (_ : ni_dbus_variant_t) =>
      (true, (⟨115, ⟨0, 0⟩, ni_dbus_variant_value.string_value arg⟩ : ni_dbus_variant_t)))
    ["eth0"] (fun _ => ni_dbus_variant_zero) 1 (by decide) (by decide)
    (by intro i _; rfl)).2.2.1
  exact ⟨by simpa using h, by decide⟩

/-- C13: `ni_dbus_message_get_args_variants` returns -1 or a value from 0 to
`max_args`; it leaves every cell `argv[i]` with `i >= max_args` as it was; it
returns -1 exactly when the decoding fails at one of the positions it visits
(position 0, and every position below `max_args` that holds an argument and is
reached because the arguments before it decoded); and with `max_args = 0` it
returns 0 and leaves `argv` as it was. -/
theorem ni_dbus_message_get_args_variants_bounds {α : Type}
    (get_variant_data : Option α → ni_dbus_variant_t → Bool × ni_dbus_variant_t)
    (msg : List α) (argv : Nat → ni_dbus_variant_t) (max_args : Nat) :
    ((ni_dbus_message_get_args_variants get_variant_data msg argv max_args).1 = -1
      ∨ (0 ≤ (ni_dbus_message_get_args_variants get_variant_data msg argv max_args).1
          ∧ (ni_dbus_message_get_args_variants get_variant_data msg argv max_args).1
              ≤ (max_args : Int)))
    ∧ (∀ i, max_args ≤ i →
        (ni_dbus_message_get_args_variants get_variant_data msg argv max_args).2 i = argv i)
    ∧ ((ni_dbus_message_get_args_variants get_variant_data msg argv max_args).1 = -1 ↔
        ∃ i, i < max_args ∧ i < max 1 msg.length
          ∧ (∀ j, j < i → (get_variant_data msg[j]? (argv j)).1 = true)
          ∧ (get_variant_data msg[i]? (argv i)).1 = false)
    ∧ (max_args = 0 →
        ni_dbus_message_get_args_variants get_variant_data msg argv max_args = (0, argv)) := by
  obtain ⟨h1, h2, h3⟩ := get_args_loop_spec get_variant_data max_args msg 0 argv
  unfold ni_dbus_message_get_args_variants
  refine ⟨?_, ?_, ?_, ?_⟩
  · rcases h1 with h | ⟨ha, hb⟩
    · exact Or.inl h
    · exact Or.inr ⟨by simpa using ha, by simpa using hb⟩
  · intro i hi
    exact h2 i (Or.inr (by omega))
  · simpa using h3
  · intro h0
    subst h0
    rfl

/-- Witness of C13: with `max_args = 0` nothing is decoded. -/
theorem ni_dbus_message_get_args_variants_bounds_witness :
    ni_dbus_message_get_args_variants
      (fun (_ : Option String) (var : ni_dbus_variant_t) => (false, var))
      ["eth0"] (fun _ => ni_dbus_variant_zero) 0 = (0, fun _ => ni_dbus_variant_zero) :=
  (ni_dbus_message_get_args_variants_bounds _ _ _ 0).2.2.2 rfl

/-! ## Unknown keys and the order of the setter calls -/

/-- The loop body of `ni_dbus_process_properties` on an entry without handler. -/
theorem process_cons_unknown {σ : Type} (handlers : List (ni_dbus_dict_entry_handler σ))
    (entry : ni_dbus_dict_entry) (rest : List ni_dbus_dict_entry) (user_object : σ)
    (h : __ni_dbus_get_property_handler handlers entry.key = none) :
    ni_dbus_process_properties (entry :: rest) handlers user_object
      = ni_dbus_process_properties rest handlers user_object := by
  rw [ni_dbus_process_properties]
  simp [h]

/-- C12: the entries of a dict whose key has no handler are ignored: without
them `ni_dbus_process_properties` returns the same value, makes the same
setter calls in the same order and leaves the same user object; and on a dict
of unknown keys only it returns 0 and calls no setter. -/
theorem ni_dbus_process_properties_ignores_unknown {σ : Type}
    (entries : List ni_dbus_dict_entry) (handlers : List (ni_dbus_dict_entry_handler σ))
    (user_object : σ) :
    (ni_dbus_process_properties (known_entries handlers entries) handlers user_object).rv
        = (ni_dbus_process_properties entries handlers user_object).rv
    ∧ (ni_dbus_process_properties (known_entries handlers entries) handlers user_object).calls
        = (ni_dbus_process_properties entries handlers user_object).calls
    ∧ (ni_dbus_process_properties (known_entries handlers entries) handlers
          user_object).user_object
        = (ni_dbus_process_properties entries handlers user_object).user_object
    ∧ ((∀ entry ∈ entries, __ni_dbus_get_property_handler handlers entry.key = none) →
        (ni_dbus_process_properties entries handlers user_object).rv = 0
        ∧ (ni_dbus_process_properties entries handlers user_object).calls = []
        ∧ (ni_dbus_process_properties entries handlers user_object).user_object
            = user_object) := by
  induction entries generalizing user_object with
  | nil =>
    simp [known_entries, ni_dbus_process_properties]
  | cons entry rest ih =>
    cases hh : __ni_dbus_get_property_handler handlers entry.key with
    | none =>
      have hk : known_entries handlers (entry :: rest) = known_entries handlers rest := by
        simp [known_entries, hh]
      rw [hk, process_cons_unknown handlers entry rest user_object hh]
      obtain ⟨h1, h2, h3, h4⟩ := ih user_object
      refine ⟨h1, h2, h3, ?_⟩
      intro hall
      exact h4 (fun e he => hall e (List.mem_cons_of_mem _ he))
    | some h =>
      have hk : known_entries handlers (entry :: rest)
          = entry :: known_entries handlers rest := by
        simp [known_entries, hh]
      rw [hk]
      refine ⟨?_, ?_, ?_, ?_⟩
      · rw [ni_dbus_process_properties, ni_dbus_process_properties.eq_def (entry :: rest)]
        simp only [hh]
        split_ifs
        · rfl
        · rfl
        · cases h.set with
          | none => exact (ih user_object).1
          | some set => exact (ih (set entry user_object)).1
      · rw [ni_dbus_process_properties, ni_dbus_process_properties.eq_def (entry :: rest)]
        simp only [hh]
        split_ifs
        · rfl
        · rfl
        · cases h.set with
          | none => exact (ih user_object).2.1
          | some set => simp only [(ih (set entry user_object)).2.1]
      · rw [ni_dbus_process_properties, ni_dbus_process_properties.eq_def (entry :: rest)]
        simp only [hh]
        split_ifs
        · rfl
        · rfl
        · cases h.set with
          | none => exact (ih user_object).2.2.1
          | some set => exact (ih (set entry user_object)).2.2.1
      · intro hall
        have := hall entry (List.mem_cons_self _ _)
        rw [hh] at this
        cases this

/-- Witness of C12 -/
theorem ni_dbus_process_properties_ignores_unknown_witness :
    (ni_dbus_process_properties [⟨"color", 115, 0, 0⟩, ⟨"shape", 97, 121, 4⟩]
        [(⟨"mtu", 117, 0, 0, 0, some (fun _ n => n + 1)⟩ : ni_dbus_dict_entry_handler Nat)]
        0).calls = [] :=
  ((ni_dbus_process_properties_ignores_unknown _ _ 0).2.2.2 (by
    intro entry hentry
    simp only [List.mem_cons, List.mem_singleton, List.not_mem_nil, or_false] at hentry
    rcases hentry with h | h <;> subst h <;> simp [__ni_dbus_get_property_handler])).2.1

/-- The loop body of `ni_dbus_process_properties` on a valid entry: the setter
of its handler runs, when there is one, and the loop goes on. -/
theorem process_cons_valid {σ : Type} (handlers : List (ni_dbus_dict_entry_handler σ))
    (entry : ni_dbus_dict_entry) (rest : List ni_dbus_dict_entry) (user_object : σ)
    (hv : valid_entry handlers entry = true) :
    (ni_dbus_process_properties (entry :: rest) handlers user_object).rv
        = (ni_dbus_process_properties rest handlers
            (apply_setters handlers [entry] user_object)).rv
    ∧ (ni_dbus_process_properties (entry :: rest) handlers user_object).user_object
        = (ni_dbus_process_properties rest handlers
            (apply_setters handlers [entry] user_object)).user_object
    ∧ (ni_dbus_process_properties (entry :: rest) handlers user_object).calls
        = setter_calls handlers [entry]
          ++ (ni_dbus_process_properties rest handlers
                (apply_setters handlers [entry] user_object)).calls := by
  rw [ni_dbus_process_properties]
  cases hh : __ni_dbus_get_property_handler handlers entry.key with
  | none => simp [apply_setters, setter_calls, hh]
  | some h =>
    have hv2 : ni_dbus_unexpected_type h entry = false
        ∧ ni_dbus_unexpected_array_length h entry = false := by
      simpa [valid_entry, hh] using hv
    cases hs : h.set with
    | none => simp [apply_setters, setter_calls, hh, hv2.1, hv2.2, hs]
    | some set => simp [apply_setters, setter_calls, hh, hv2.1, hv2.2, hs]

/-- The setter calls of a list that starts with `entry`. -/
theorem setter_calls_cons {σ : Type} (handlers : List (ni_dbus_dict_entry_handler σ))
    (entry : ni_dbus_dict_entry) (rest : List ni_dbus_dict_entry) :
    setter_calls handlers (entry :: rest)
      = setter_calls handlers [entry] ++ setter_calls handlers rest := by
  simp only [setter_calls, List.filterMap_cons, List.filterMap_nil]
  split <;> simp

/-- The user object after the setters of a list that starts with `entry`. -/
theorem apply_setters_cons {σ : Type} (handlers : List (ni_dbus_dict_entry_handler σ))
    (entry : ni_dbus_dict_entry) (rest : List ni_dbus_dict_entry) (user_object : σ) :
    apply_setters handlers (entry :: rest) user_object
      = apply_setters handlers rest (apply_setters handlers [entry] user_object) := by
  simp [apply_setters]

/-- On a dict of valid entries `ni_dbus_process_properties` returns 0 after
all the setter calls. -/
theorem process_all_valid {σ : Type} (handlers : List (ni_dbus_dict_entry_handler σ)) :
    ∀ (entries : List ni_dbus_dict_entry) (user_object : σ),
      (∀ e ∈ entries, valid_entry handlers e = true) →
      (ni_dbus_process_properties entries handlers user_object).rv = 0
      ∧ (ni_dbus_process_properties entries handlers user_object).user_object
          = apply_setters handlers entries user_object
      ∧ (ni_dbus_process_properties entries handlers user_object).calls
          = setter_calls handlers entries
  | [], user_object, _ => by
    simp [ni_dbus_process_properties, apply_setters, setter_calls]
  | entry :: rest, user_object, hall => by
    obtain ⟨h1, h2, h3⟩ := process_cons_valid handlers entry rest user_object
      (hall entry (List.mem_cons_self _ _))
    obtain ⟨i1, i2, i3⟩ := process_all_valid handlers rest
      (apply_setters handlers [entry] user_object)
      (fun e he => hall e (List.mem_cons_of_mem _ he))
    rw [h1, h2, h3, i1, i2, i3, setter_calls_cons handlers entry rest,
      apply_setters_cons handlers entry rest]
    exact ⟨rfl, rfl, rfl⟩

/-- On a dict with a first entry that is not valid `ni_dbus_process_properties`
returns `-EINVAL` after the setter calls of the entries before it. -/
theorem process_first_invalid {σ : Type} (handlers : List (ni_dbus_dict_entry_handler σ))
    (bad : ni_dbus_dict_entry) (post : List ni_dbus_dict_entry)
    (hbad : valid_entry handlers bad = false) :
    ∀ (pre : List ni_dbus_dict_entry) (user_object : σ),
      (∀ e ∈ pre, valid_entry handlers e = true) →
      (ni_dbus_process_properties (pre ++ bad :: post) handlers user_object).rv = -EINVAL
      ∧ (ni_dbus_process_properties (pre ++ bad :: post) handlers user_object).user_object
          = apply_setters handlers pre user_object
      ∧ (ni_dbus_process_properties (pre ++ bad :: post) handlers user_object).calls
          = setter_calls handlers pre
  | [], user_object, _ => by
    rw [List.nil_append, ni_dbus_process_properties]
    cases hh : __ni_dbus_get_property_handler handlers bad.key with
    | none => simp [valid_entry, hh] at hbad
    | some h =>
      simp only [valid_entry, hh, Bool.and_eq_false_iff, Bool.not_eq_false'] at hbad
      rcases hbad with hb | hb
      · simp [hb, apply_setters, setter_calls]
      · by_cases ht : ni_dbus_unexpected_type h bad = true
        · simp [ht, apply_setters, setter_calls]
        · simp [ht, hb, apply_setters, setter_calls]
  | entry :: rest, user_object, hall => by
    obtain ⟨h1, h2, h3⟩ := process_cons_valid handlers entry (rest ++ bad :: post) user_object
      (hall entry (List.mem_cons_self _ _))
    obtain ⟨i1, i2, i3⟩ := process_first_invalid handlers bad post hbad rest
      (apply_setters handlers [entry] user_object)
      (fun e he => hall e (List.mem_cons_of_mem _ he))
    rw [List.cons_append, h1, h2, h3, i1, i2, i3, setter_calls_cons handlers entry rest,
      apply_setters_cons handlers entry rest]
    exact ⟨rfl, rfl, rfl⟩

/-- A dict has only valid entries or a first entry that is not valid. -/
theorem first_invalid_split {σ : Type} (handlers : List (ni_dbus_dict_entry_handler σ)) :
    ∀ entries : List ni_dbus_dict_entry,
      (∀ e ∈ entries, valid_entry handlers e = true)
      ∨ ∃ pre bad post, entries = pre ++ bad :: post
          ∧ (∀ e ∈ pre, valid_entry handlers e = true) ∧ valid_entry handlers bad = false
  | [] => Or.inl (by simp)
  | entry :: rest => by
    by_cases hv : valid_entry handlers entry = true
    · rcases first_invalid_split handlers rest with hall | ⟨pre, bad, post, he, hpre, hbad⟩
      · left
        intro e he
        rcases List.mem_cons.1 he with h | h
        · rw [h]
          exact hv
        · exact hall e h
      · right
        refine ⟨entry :: pre, bad, post, by rw [he]; rfl, ?_, hbad⟩
        intro e he2
        rcases List.mem_cons.1 he2 with h | h
        · rw [h]
          exact hv
        · exact hpre e h
    · right
      exact ⟨[], entry, rest, rfl, by simp, by simpa using hv⟩

/-- C14: `ni_dbus_process_properties` stops at the first known-key entry that
is not valid and keeps what the setters did: when it returns `-EINVAL` the dict
splits into the valid entries before that entry, the entry and the entries
after it, and the setter calls made are those of the entries before it, in
dict order, none for the entry itself or a later one; when it returns 0 every
entry is valid and there was one setter call for each known-key entry whose
handler has a setter, in dict order. -/
theorem ni_dbus_process_properties_stops_at_first_invalid {σ : Type}
    (entries : List ni_dbus_dict_entry) (handlers : List (ni_dbus_dict_entry_handler σ))
    (user_object : σ) :
    ((ni_dbus_process_properties entries handlers user_object).rv = -EINVAL →
      ∃ pre bad post, entries = pre ++ bad :: post
        ∧ (∀ e ∈ pre, valid_entry handlers e = true)
        ∧ (∃ h, __ni_dbus_get_property_handler handlers bad.key = some h
            ∧ (ni_dbus_unexpected_type h bad = true
                ∨ ni_dbus_unexpected_array_length h bad = true))
        ∧ (ni_dbus_process_properties entries handlers user_object).calls
            = setter_calls handlers pre
        ∧ (ni_dbus_process_properties entries handlers user_object).user_object
            = apply_setters handlers pre user_object)
    ∧ ((ni_dbus_process_properties entries handlers user_object).rv = 0 →
        (∀ e ∈ entries, valid_entry handlers e = true)
        ∧ (ni_dbus_process_properties entries handlers user_object).calls
            = setter_calls handlers entries
        ∧ (ni_dbus_process_properties entries handlers user_object).user_object
            = apply_setters handlers entries user_object) := by
  rcases first_invalid_split handlers entries with hall | ⟨pre, bad, post, he, hpre, hbad⟩
  · obtain ⟨h1, h2, h3⟩ := process_all_valid handlers entries user_object hall
    constructor
    · intro hrv
      rw [h1] at hrv
      exact absurd hrv (by decide)
    · intro _
      exact ⟨hall, h3, h2⟩
  · obtain ⟨h1, h2, h3⟩ := process_first_invalid handlers bad post hbad pre user_object hpre
    subst he
    constructor
    · intro _
      refine ⟨pre, bad, post, rfl, hpre, ?_, h3, h2⟩
      cases hh : __ni_dbus_get_property_handler handlers bad.key with
      | none => simp [valid_entry, hh] at hbad
      | some h =>
        refine ⟨h, rfl, ?_⟩
        simp only [valid_entry, hh, Bool.and_eq_false_iff, Bool.not_eq_false'] at hbad
        exact hbad
    · intro hrv
      rw [h1] at hrv
      exact absurd hrv (by decide)

/-- Witness of C14: the second entry has the wrong type, the setter of the
first one has run and the setter of the third one has not. -/
theorem ni_dbus_process_properties_stops_at_first_invalid_witness :
    ∃ pre bad post,
      [(⟨"name", 115, 0, 0⟩ : ni_dbus_dict_entry), ⟨"mtu", 115, 0, 0⟩, ⟨"name", 115, 0, 0⟩]
        = pre ++ bad :: post
      ∧ (ni_dbus_process_properties
          [⟨"name", 115, 0, 0⟩, ⟨"mtu", 115, 0, 0⟩, ⟨"name", 115, 0, 0⟩]
          [(⟨"name", 115, 0, 0, 0, some (fun _ n => n + 1)⟩ : ni_dbus_dict_entry_handler Nat),
            ⟨"mtu", 117, 0, 0, 0, some (fun _ n => n + 10)⟩] 0).user_object
        = apply_setters
          [(⟨"name", 115, 0, 0, 0, some (fun _ n => n + 1)⟩ : ni_dbus_dict_entry_handler Nat),
            ⟨"mtu", 117, 0, 0, 0, some (fun _ n => n + 10)⟩] pre 0 := by
  obtain ⟨pre, bad, post, h1, _, _, _, h5⟩ :=
    (ni_dbus_process_properties_stops_at_first_invalid
      [⟨"name", 115, 0, 0⟩, ⟨"mtu", 115, 0, 0⟩, ⟨"name", 115, 0, 0⟩]
      [(⟨"name", 115, 0, 0, 0, some (fun _ n => n + 1)⟩ : ni_dbus_dict_entry_handler Nat),
        ⟨"mtu", 117, 0, 0, 0, some (fun _ n => n + 10)⟩] 0).1 (by
        simp [ni_dbus_process_properties, __ni_dbus_get_property_handler,
          ni_dbus_unexpected_type, ni_dbus_unexpected_array_length, DBUS_TYPE_ARRAY])
  exact ⟨pre, bad, post, h1, h5⟩

/-! ## Invariant of the variants -/

/-- The variant after `ni_dbus_variant_destroy`. -/
theorem destroy_eq_zero (var : ni_dbus_variant_t) :
    ni_dbus_variant_destroy var = ni_dbus_variant_zero := by
  unfold ni_dbus_variant_destroy ni_dbus_variant_zero
  split_ifs <;> rfl

/-- C16: after `ni_dbus_variant_destroy` the type of the variant is
`DBUS_TYPE_INVALID`, `array.len` and the element type are 0 and the union is
zeroed, whatever the variant was; destroying twice gives the same variant as
destroying once. -/
theorem ni_dbus_variant_destroy_spec (var : ni_dbus_variant_t) :
    (ni_dbus_variant_destroy var).type = DBUS_TYPE_INVALID
    ∧ (ni_dbus_variant_destroy var).array.len = 0
    ∧ (ni_dbus_variant_destroy var).array.element_type = 0
    ∧ (ni_dbus_variant_destroy var).value = ni_dbus_variant_value.zero
    ∧ ni_dbus_variant_destroy var = ni_dbus_variant_zero
    ∧ ni_dbus_variant_destroy (ni_dbus_variant_destroy var) = ni_dbus_variant_destroy var := by
  rw [destroy_eq_zero var, destroy_eq_zero ni_dbus_variant_zero]
  exact ⟨rfl, rfl, rfl, rfl, rfl, rfl⟩

/-- The zeroed variant keeps the invariant. -/
theorem variant_inv_zero : variant_inv ni_dbus_variant_zero := by
  refine ⟨fun _ => rfl, fun h => ?_⟩
  exact absurd h (by decide)

/-- After `__ni_dbus_variant_change_type` to a type that is not
`DBUS_TYPE_ARRAY` the length of the array is 0. -/
theorem change_type_len (var : ni_dbus_variant_t) (new_type : Int) (hinv : variant_inv var)
    (hnew : new_type ≠ DBUS_TYPE_ARRAY) :
    (__ni_dbus_variant_change_type var new_type).array.len = 0 := by
  unfold __ni_dbus_variant_change_type
  split_ifs with h1 h2 h3
  · exact hinv.1 (by rw [h1]; exact hnew)
  · rw [destroy_eq_zero]
    rfl
  · have hna : var.type ≠ DBUS_TYPE_ARRAY := fun h => h3 (Or.inr (Or.inr h))
    exact hinv.1 hna
  · have hna : var.type ≠ DBUS_TYPE_ARRAY := by
      have h0 : var.type = DBUS_TYPE_INVALID := by simpa using h2
      rw [h0]
      decide
    exact hinv.1 hna

/-- A variant whose type is not `DBUS_TYPE_ARRAY` and whose `array.len` is 0
keeps the invariant. -/
theorem variant_inv_of_scalar (var : ni_dbus_variant_t) (ht : var.type ≠ DBUS_TYPE_ARRAY)
    (hl : var.array.len = 0) : variant_inv var :=
  ⟨fun _ => hl, fun h => absurd h ht⟩

/-- The block of `len` assigned cells after `realloc` to one more cell and
the assignment of that cell. -/
theorem realloc_set_last (cells : List (Option String)) (len : Nat) (x : Option String)
    (hlen : cells.length = len) :
    (realloc_cells cells (len + 1)).set len x = cells ++ [x] := by
  unfold realloc_cells
  rw [List.take_of_length_le (by omega)]
  have h1 : len + 1 - cells.length = 1 := by omega
  rw [h1]
  subst hlen
  simp

/-- A scalar setter, or `ni_dbus_variant_set_string`, keeps the invariant:
what it does after `__ni_dbus_variant_change_type` is to store a value. -/
theorem variant_inv_store (var : ni_dbus_variant_t) (new_type : Int)
    (value : ni_dbus_variant_value) (hinv : variant_inv var)
    (hnew : new_type ≠ DBUS_TYPE_ARRAY) :
    variant_inv { __ni_dbus_variant_change_type var new_type with value := value } := by
  apply variant_inv_of_scalar
  · show (__ni_dbus_variant_change_type var new_type).type ≠ DBUS_TYPE_ARRAY
    rw [change_type_type]
    exact hnew
  · exact change_type_len var new_type hinv hnew

/-- The type tags of bytes and of strings are different. -/
theorem byte_ne_string : DBUS_TYPE_BYTE ≠ DBUS_TYPE_STRING := by decide

/-- The function `ni_dbus_variant_set_byte_array` keeps the invariant. -/
theorem variant_inv_set_byte_array (var : ni_dbus_variant_t) (len : Nat) (data : Nat → Nat) :
    variant_inv (ni_dbus_variant_set_byte_array var len data) := by
  unfold ni_dbus_variant_set_byte_array
  rw [destroy_eq_zero]
  by_cases hl : len = 0
  · subst hl
    refine ⟨fun h => absurd rfl h, fun _ => ⟨Or.inl rfl, rfl,
      fun h => absurd h byte_ne_string⟩⟩
  · rw [if_pos hl]
    refine ⟨fun h => absurd rfl h, fun _ => ⟨Or.inl rfl, ?_,
      fun h => absurd h byte_ne_string⟩⟩
    simp [elements_stored]

/-- The function `ni_dbus_variant_set_string_array` keeps the invariant. -/
theorem variant_inv_set_string_array (var : ni_dbus_variant_t) (len : Nat)
    (data : Nat → Option String) :
    variant_inv (ni_dbus_variant_set_string_array var len data) := by
  unfold ni_dbus_variant_set_string_array
  rw [destroy_eq_zero]
  by_cases hl : len = 0
  · subst hl
    refine ⟨fun h => absurd rfl h, fun _ => ⟨Or.inr rfl, rfl, fun _ => ⟨rfl, ?_⟩⟩⟩
    intro c hc
    simp [string_array_cells, ni_dbus_variant_zero] at hc
  · rw [if_pos hl]
    refine ⟨fun h => absurd rfl h, fun _ => ⟨Or.inr rfl, ?_, fun _ => ⟨?_, ?_⟩⟩⟩
    · simp [elements_stored, List.filter_map, Function.comp_def]
    · simp [string_array_cells]
    · intro c hc
      simp only [string_array_cells, List.mem_map] at hc
      obtain ⟨i, _, hi⟩ := hc
      rw [← hi]
      rfl

/-- The function `ni_dbus_variant_append_string_array` keeps the invariant. -/
theorem variant_inv_append (var : ni_dbus_variant_t) (s : Option String)
    (hinv : variant_inv var) :
    variant_inv (ni_dbus_variant_append_string_array var s).2 := by
  unfold ni_dbus_variant_append_string_array
  by_cases hc : var.type ≠ DBUS_TYPE_ARRAY ∨ var.array.element_type ≠ DBUS_TYPE_STRING
  · simp only [if_pos hc]
    exact hinv
  · simp only [if_neg hc]
    have ht : var.type = DBUS_TYPE_ARRAY := by
      by_contra h
      exact hc (Or.inl h)
    have he : var.array.element_type = DBUS_TYPE_STRING := by
      by_contra h
      exact hc (Or.inr h)
    obtain ⟨_, _, hcells⟩ := hinv.2 ht
    obtain ⟨hlen, hsome⟩ := hcells he
    rw [realloc_set_last (string_array_cells var) var.array.len _ hlen]
    have hall : ∀ c ∈ string_array_cells var ++ [some (xstrdup_or_empty s)],
        c.isSome = true := by
      intro c hc2
      rcases List.mem_append.1 hc2 with h | h
      · exact hsome c h
      · rw [List.mem_singleton.1 h]
        rfl
    refine ⟨fun h => absurd ht h, fun _ => ⟨Or.inr he, ?_, fun _ => ⟨?_, ?_⟩⟩⟩
    · simp only [elements_stored]
      rw [List.filter_eq_self.2 hall]
      simp [hlen]
    · show (string_array_cells var ++ [some (xstrdup_or_empty s)]).length = var.array.len + 1
      rw [List.length_append, hlen]
      rfl
    · intro c hc2
      exact hall c hc2

/-- Every call of `ni_dbus_variant_call` keeps the invariant. -/
theorem variant_inv_run (c : ni_dbus_variant_call) (var : ni_dbus_variant_t)
    (hinv : variant_inv var) : variant_inv (c.run var) := by
  cases c with
  | set_string value => exact variant_inv_store var _ _ hinv (by decide)
  | set_bool value => exact variant_inv_store var _ _ hinv (by decide)
  | set_byte value => exact variant_inv_store var _ _ hinv (by decide)
  | set_uint16 value => exact variant_inv_store var _ _ hinv (by decide)
  | set_int16 value => exact variant_inv_store var _ _ hinv (by decide)
  | set_uint32 value => exact variant_inv_store var _ _ hinv (by decide)
  | set_int32 value => exact variant_inv_store var _ _ hinv (by decide)
  | set_uint64 value => exact variant_inv_store var _ _ hinv (by decide)
  | set_int64 value => exact variant_inv_store var _ _ hinv (by decide)
  | set_byte_array len data => exact variant_inv_set_byte_array var len data
  | set_string_array len data => exact variant_inv_set_string_array var len data
  | append_string_array string => exact variant_inv_append var string hinv
  | destroy =>
    show variant_inv (ni_dbus_variant_destroy var)
    rw [destroy_eq_zero]
    exact variant_inv_zero

/-- The invariant holds after every sequence of calls from a variant that has it. -/
theorem variant_inv_foldl (calls : List ni_dbus_variant_call) :
    ∀ var : ni_dbus_variant_t, variant_inv var →
      variant_inv (calls.foldl (fun v c => c.run v) var) := by
  induction calls with
  | nil => exact fun var h => h
  | cons c rest ih => exact fun var h => ih (c.run var) (variant_inv_run c var h)

/-- C15: for the variant reached from the zeroed variant by any sequence of
calls of the setters, of `ni_dbus_variant_append_string_array` and of
`ni_dbus_variant_destroy`: `array.len` is not 0 only when the type is
`DBUS_TYPE_ARRAY`, and when the type is `DBUS_TYPE_ARRAY` the element type is
`DBUS_TYPE_BYTE` or `DBUS_TYPE_STRING` and `array.len` is the number of
elements stored. -/
theorem ni_dbus_variant_array_invariant (calls : List ni_dbus_variant_call) :
    ((ni_dbus_variant_after calls).array.len ≠ 0 →
        (ni_dbus_variant_after calls).type = DBUS_TYPE_ARRAY)
    ∧ ((ni_dbus_variant_after calls).type = DBUS_TYPE_ARRAY →
        ((ni_dbus_variant_after calls).array.element_type = DBUS_TYPE_BYTE
          ∨ (ni_dbus_variant_after calls).array.element_type = DBUS_TYPE_STRING)
        ∧ (ni_dbus_variant_after calls).array.len
            = elements_stored (ni_dbus_variant_after calls)) := by
  have hinv : variant_inv (ni_dbus_variant_after calls) :=
    variant_inv_foldl calls ni_dbus_variant_zero variant_inv_zero
  refine ⟨fun hlen => ?_, fun ht => ⟨(hinv.2 ht).1, (hinv.2 ht).2.1⟩⟩
  by_contra hna
  exact hlen (hinv.1 hna)

/-- Witness of C15: a string array of two elements with one more appended. -/
theorem ni_dbus_variant_array_invariant_witness :
    (ni_dbus_variant_after
      [ni_dbus_variant_call.set_uint32 7,
        ni_dbus_variant_call.set_string_array 2 (fun _ => some "lo"),
        ni_dbus_variant_call.append_string_array none]).array.len
      = elements_stored (ni_dbus_variant_after
          [ni_dbus_variant_call.set_uint32 7,
            ni_dbus_variant_call.set_string_array 2 (fun _ => some "lo"),
            ni_dbus_variant_call.append_string_array none]) :=
  ((ni_dbus_variant_array_invariant _).2 (by decide)).2

/-! ## Printing a variant -/

/-- The code of the character of a decimal digit. -/
theorem decimal_digit_toNat (d : Nat) (hd : d < 10) : (decimal_digit d).toNat = 48 + d := by
  interval_cases d <;> decide

/-- Reading the digits of two lists, one after the other. -/
theorem parse_digits_append (l1 l2 : List Char) :
    ∀ acc, parse_digits (l1 ++ l2) acc = (parse_digits l1 acc).bind (parse_digits l2) := by
  induction l1 with
  | nil => intro acc; rfl
  | cons c cs ih =>
    intro acc
    simp only [List.cons_append, parse_digits]
    split_ifs
    · exact ih _
    · rfl

/-- Reading one decimal digit after the number `acc`. -/
theorem parse_digits_digit (d acc : Nat) (hd : d < 10) :
    parse_digits [decimal_digit d] acc = some (acc * 10 + d) := by
  have h := decimal_digit_toNat d hd
  simp only [parse_digits, h]
  rw [if_pos (by omega)]
  congr 1
  omega

/-- The digits printed for a number read back as the number. -/
theorem parse_digits_decimal (n : Nat) : parse_digits (decimal_digits n) 0 = some n := by
  induction n using Nat.strong_induction_on with
  | _ n ih =>
    rw [decimal_digits]
    split_ifs with h
    · rw [parse_digits_digit n 0 h]
      simp
    · rw [parse_digits_append, ih (n / 10) (by omega)]
      simp only [Option.some_bind]
      rw [parse_digits_digit (n % 10) (n / 10) (by omega)]
      congr 1
      omega

/-- The digits printed for a number start with a character that is not the
minus sign. -/
theorem decimal_digits_head (n : Nat) :
    ∃ c cs, decimal_digits n = c :: cs ∧ c ≠ '-' := by
  induction n using Nat.strong_induction_on with
  | _ n ih =>
    rw [decimal_digits]
    split_ifs with h
    · refine ⟨decimal_digit n, [], rfl, ?_⟩
      intro hc
      have h1 := decimal_digit_toNat n h
      rw [hc] at h1
      have h2 : ('-' : Char).toNat = 45 := by decide
      omega
    · obtain ⟨c, cs, hcs, hne⟩ := ih (n / 10) (by omega)
      exact ⟨c, cs ++ [decimal_digit (n % 10)], by rw [hcs]; rfl, hne⟩

/-- Parsing what `%u` prints gives the number back. -/
theorem parse_print_unsigned (n : Nat) : parse_unsigned (print_unsigned n) = some n := by
  obtain ⟨c, cs, hcs, _⟩ := decimal_digits_head n
  have h := parse_digits_decimal n
  rw [hcs] at h
  simp only [parse_unsigned, print_unsigned, hcs]
  exact h

/-- Parsing what `%d` prints gives the number back. -/
theorem parse_print_signed (i : Int) : parse_signed (print_signed i) = some i := by
  unfold print_signed
  split_ifs with hneg
  · obtain ⟨c, cs, hcs, _⟩ := decimal_digits_head i.natAbs
    have h := parse_digits_decimal i.natAbs
    rw [hcs] at h
    simp only [parse_signed, hcs, if_true, h, Option.map_some']
    congr 1
    rw [Int.natCast_natAbs, abs_of_neg hneg, neg_neg]
  · obtain ⟨c, cs, hcs, hne⟩ := decimal_digits_head i.toNat
    have h := parse_digits_decimal i.toNat
    rw [hcs] at h
    simp only [parse_signed, hcs, if_neg hne, h, Option.map_some']
    congr 1
    exact Int.toNat_of_nonneg (by omega)

/-- What `0x%02x` prints for a byte: two hexadecimal digits after `0x`. -/
theorem print_hex_02x_byte (n : Nat) (hn : n < 256) :
    print_hex_02x n = String.mk ['0', 'x', hex_digit (n / 16), hex_digit (n % 16)] := by
  unfold print_hex_02x
  by_cases h : n < 16
  · have hd : hex_digits n = [hex_digit n] := by
      rw [hex_digits, if_pos h]
    have h0 : n / 16 = 0 := by omega
    have h1 : n % 16 = n := by omega
    rw [hd, h0, h1]
    rfl
  · have hq : n / 16 < 16 := by omega
    have hd : hex_digits n = [hex_digit (n / 16), hex_digit (n % 16)] := by
      rw [hex_digits, if_neg h, hex_digits, if_pos hq]
      rfl
    rw [hd]
    rfl

/-- What `ni_dbus_variant_sprint` returns for a signed integer of 16, 32 or 64 bits. -/
theorem sprint_signed (var : ni_dbus_variant_t) (i : Int) :
    (var.type = DBUS_TYPE_INT16 → var.value = ni_dbus_variant_value.int16_value i →
        ni_dbus_variant_sprint var = some (some (print_signed i)))
    ∧ (var.type = DBUS_TYPE_INT32 → var.value = ni_dbus_variant_value.int32_value i →
        ni_dbus_variant_sprint var = some (some (print_signed i)))
    ∧ (var.type = DBUS_TYPE_INT64 → var.value = ni_dbus_variant_value.int64_value i →
        ni_dbus_variant_sprint var = some (some (print_signed i))) := by
  refine ⟨?_, ?_, ?_⟩ <;> intro ht hv <;>
    simp [ni_dbus_variant_sprint, ht, hv, read_int16_value, read_int32_value, read_int64_value,
      DBUS_TYPE_STRING, DBUS_TYPE_OBJECT_PATH, DBUS_TYPE_BYTE, DBUS_TYPE_BOOLEAN,
      DBUS_TYPE_INT16, DBUS_TYPE_UINT16, DBUS_TYPE_INT32, DBUS_TYPE_UINT32, DBUS_TYPE_INT64]

/-- What `ni_dbus_variant_sprint` returns for an unsigned integer of 16, 32 or 64 bits. -/
theorem sprint_unsigned (var : ni_dbus_variant_t) (n : Nat) :
    (var.type = DBUS_TYPE_UINT16 → var.value = ni_dbus_variant_value.uint16_value n →
        ni_dbus_variant_sprint var = some (some (print_unsigned n)))
    ∧ (var.type = DBUS_TYPE_UINT32 → var.value = ni_dbus_variant_value.uint32_value n →
        ni_dbus_variant_sprint var = some (some (print_unsigned n)))
    ∧ (var.type = DBUS_TYPE_UINT64 → var.value = ni_dbus_variant_value.uint64_value n →
        ni_dbus_variant_sprint var = some (some (print_unsigned n))) := by
  refine ⟨?_, ?_, ?_⟩ <;> intro ht hv <;>
    simp [ni_dbus_variant_sprint, ht, hv, read_uint16_value, read_uint32_value,
      read_uint64_value, DBUS_TYPE_STRING, DBUS_TYPE_OBJECT_PATH, DBUS_TYPE_BYTE,
      DBUS_TYPE_BOOLEAN, DBUS_TYPE_INT16, DBUS_TYPE_UINT16, DBUS_TYPE_INT32, DBUS_TYPE_UINT32,
      DBUS_TYPE_INT64, DBUS_TYPE_UINT64]

/-- The value a scalar setter leaves in the union. -/
theorem setter_values (var : ni_dbus_variant_t) (n : Nat) (i : Int) :
    (ni_dbus_variant_set_int16 var i).value = ni_dbus_variant_value.int16_value i
    ∧ (ni_dbus_variant_set_uint16 var n).value = ni_dbus_variant_value.uint16_value n
    ∧ (ni_dbus_variant_set_int32 var i).value = ni_dbus_variant_value.int32_value i
    ∧ (ni_dbus_variant_set_uint32 var n).value = ni_dbus_variant_value.uint32_value n
    ∧ (ni_dbus_variant_set_int64 var i).value = ni_dbus_variant_value.int64_value i
    ∧ (ni_dbus_variant_set_uint64 var n).value = ni_dbus_variant_value.uint64_value n :=
  ⟨rfl, rfl, rfl, rfl, rfl, rfl⟩

/-- The type a scalar setter leaves in the variant. -/
theorem setter_types (var : ni_dbus_variant_t) (n : Nat) (i : Int) :
    (ni_dbus_variant_set_int16 var i).type = DBUS_TYPE_INT16
    ∧ (ni_dbus_variant_set_uint16 var n).type = DBUS_TYPE_UINT16
    ∧ (ni_dbus_variant_set_int32 var i).type = DBUS_TYPE_INT32
    ∧ (ni_dbus_variant_set_uint32 var n).type = DBUS_TYPE_UINT32
    ∧ (ni_dbus_variant_set_int64 var i).type = DBUS_TYPE_INT64
    ∧ (ni_dbus_variant_set_uint64 var n).type = DBUS_TYPE_UINT64 := by
  simp [ni_dbus_variant_set_uint16, ni_dbus_variant_set_int16, ni_dbus_variant_set_uint32,
    ni_dbus_variant_set_int32, ni_dbus_variant_set_uint64, ni_dbus_variant_set_int64,
    change_type_type]

/-- C17: `ni_dbus_variant_sprint` returns `true` or `false` for a boolean,
`true` when `bool_value` is not 0; `0x` and the two lower-case hexadecimal
digits of the value for a byte; the decimal representation of the value for
the integers of 16, 32 and 64 bits, signed and unsigned, so that parsing what
it returns after the matching setter gives the value set; and
`<unknown type>` for every type that is none of these, a string or an object
path, `DBUS_TYPE_ARRAY` and `DBUS_TYPE_INVALID` included. -/
theorem ni_dbus_variant_sprint_spec (var : ni_dbus_variant_t) (n : Nat) (i : Int) :
    (var.type = DBUS_TYPE_BOOLEAN → var.value = ni_dbus_variant_value.bool_value n →
        ni_dbus_variant_sprint var = some (some (if n ≠ 0 then "true" else "false")))
    ∧ (var.type = DBUS_TYPE_BYTE → var.value = ni_dbus_variant_value.byte_value n → n < 256 →
        ni_dbus_variant_sprint var
          = some (some (String.mk ['0', 'x', hex_digit (n / 16), hex_digit (n % 16)])))
    ∧ ((var.type = DBUS_TYPE_INT16 → var.value = ni_dbus_variant_value.int16_value i →
          ni_dbus_variant_sprint var = some (some (print_signed i)))
      ∧ (var.type = DBUS_TYPE_UINT16 → var.value = ni_dbus_variant_value.uint16_value n →
          ni_dbus_variant_sprint var = some (some (print_unsigned n)))
      ∧ (var.type = DBUS_TYPE_INT32 → var.value = ni_dbus_variant_value.int32_value i →
          ni_dbus_variant_sprint var = some (some (print_signed i)))
      ∧ (var.type = DBUS_TYPE_UINT32 → var.value = ni_dbus_variant_value.uint32_value n →
          ni_dbus_variant_sprint var = some (some (print_unsigned n)))
      ∧ (var.type = DBUS_TYPE_INT64 → var.value = ni_dbus_variant_value.int64_value i →
          ni_dbus_variant_sprint var = some (some (print_signed i)))
      ∧ (var.type = DBUS_TYPE_UINT64 → var.value = ni_dbus_variant_value.uint64_value n →
          ni_dbus_variant_sprint var = some (some (print_unsigned n))))
    ∧ ((ni_dbus_variant_sprint (ni_dbus_variant_set_int16 var i)).join.bind parse_signed = some i
      ∧ (ni_dbus_variant_sprint (ni_dbus_variant_set_uint16 var n)).join.bind parse_unsigned
          = some n
      ∧ (ni_dbus_variant_sprint (ni_dbus_variant_set_int32 var i)).join.bind parse_signed
          = some i
      ∧ (ni_dbus_variant_sprint (ni_dbus_variant_set_uint32 var n)).join.bind parse_unsigned
          = some n
      ∧ (ni_dbus_variant_sprint (ni_dbus_variant_set_int64 var i)).join.bind parse_signed
          = some i
      ∧ (ni_dbus_variant_sprint (ni_dbus_variant_set_uint64 var n)).join.bind parse_unsigned
          = some n)
    ∧ (var.type ≠ DBUS_TYPE_STRING → var.type ≠ DBUS_TYPE_OBJECT_PATH →
        var.type ≠ DBUS_TYPE_BYTE → var.type ≠ DBUS_TYPE_BOOLEAN →
        var.type ≠ DBUS_TYPE_INT16 → var.type ≠ DBUS_TYPE_UINT16 →
        var.type ≠ DBUS_TYPE_INT32 → var.type ≠ DBUS_TYPE_UINT32 →
        var.type ≠ DBUS_TYPE_INT64 → var.type ≠ DBUS_TYPE_UINT64 →
        ni_dbus_variant_sprint var = some (some "<unknown type>"))
    ∧ (var.type = DBUS_TYPE_ARRAY ∨ var.type = DBUS_TYPE_INVALID →
        ni_dbus_variant_sprint var = some (some "<unknown type>")) := by
  obtain ⟨s16, s32, s64⟩ := sprint_signed var i
  obtain ⟨u16, u32, u64⟩ := sprint_unsigned var n
  obtain ⟨v1, v2, v3, v4, v5, v6⟩ := setter_values var n i
  obtain ⟨t1, t2, t3, t4, t5, t6⟩ := setter_types var n i
  refine ⟨?_, ?_, ⟨s16, u16, s32, u32, s64, u64⟩, ⟨?_, ?_, ?_, ?_, ?_, ?_⟩, ?_, ?_⟩
  · intro ht hv
    simp [ni_dbus_variant_sprint, ht, hv, read_bool_value, DBUS_TYPE_STRING,
      DBUS_TYPE_OBJECT_PATH, DBUS_TYPE_BYTE, DBUS_TYPE_BOOLEAN]
  · intro ht hv hn
    simp [ni_dbus_variant_sprint, ht, hv, read_byte_value, DBUS_TYPE_STRING,
      DBUS_TYPE_OBJECT_PATH, DBUS_TYPE_BYTE, print_hex_02x_byte n hn]
  · rw [(sprint_signed _ i).1 t1 v1]
    exact parse_print_signed i
  · rw [(sprint_unsigned _ n).1 t2 v2]
    exact parse_print_unsigned n
  · rw [(sprint_signed _ i).2.1 t3 v3]
    exact parse_print_signed i
  · rw [(sprint_unsigned _ n).2.1 t4 v4]
    exact parse_print_unsigned n
  · rw [(sprint_signed _ i).2.2 t5 v5]
    exact parse_print_signed i
  · rw [(sprint_unsigned _ n).2.2 t6 v6]
    exact parse_print_unsigned n
  · intro h1 h2 h3 h4 h5 h6 h7 h8 h9 h10
    simp [ni_dbus_variant_sprint, h1, h2, h3, h4, h5, h6, h7, h8, h9, h10]
  · intro h
    rcases h with h | h <;>
      simp [ni_dbus_variant_sprint, h, DBUS_TYPE_ARRAY, DBUS_TYPE_INVALID, DBUS_TYPE_STRING,
        DBUS_TYPE_OBJECT_PATH, DBUS_TYPE_BYTE, DBUS_TYPE_BOOLEAN, DBUS_TYPE_INT16,
        DBUS_TYPE_UINT16, DBUS_TYPE_INT32, DBUS_TYPE_UINT32, DBUS_TYPE_INT64, DBUS_TYPE_UINT64]

/-- Witness of C17: the byte 171 is printed as `0xab`, and a variant of a
type that has no case prints as `<unknown type>`. -/
theorem ni_dbus_variant_sprint_spec_witness :
    ni_dbus_variant_sprint ⟨121, ⟨0, 0⟩, ni_dbus_variant_value.byte_value 171⟩
      = some (some "0xab")
    ∧ ni_dbus_variant_sprint ⟨100, ⟨0, 0⟩, ni_dbus_variant_value.zero⟩
      = some (some "<unknown type>") :=
  ⟨(ni_dbus_variant_sprint_spec ⟨121, ⟨0, 0⟩, ni_dbus_variant_value.byte_value 171⟩ 171 0).2.1
      rfl rfl (by decide),
    (ni_dbus_variant_sprint_spec ⟨100, ⟨0, 0⟩, ni_dbus_variant_value.zero⟩ 0 0).2.2.2.2.1
      (by decide) (by decide) (by decide) (by decide) (by decide) (by decide) (by decide)
      (by decide) (by decide) (by decide)⟩

end Wicked
